import Mathlib

/-!
# Queue abstraction: shallow embedding and verified properties

A shallow embedding of the Go packages `queue`, `queue/options`, `queue/sqs`,
`queue/nsq` and `queue/mem`.

* A Go `error` is `Option String`: `none` is `nil`, `some msg` is a non-nil error.
* A Go `*string` is `Option String`: `none` is the nil pointer. Identifiers, URIs and
  error texts are Lean strings; payloads and message bodies are byte lists.
* A Go channel is a record of its capacity, its buffered values (oldest first) and
  whether it has been closed; an operation either completes, blocks, or panics.
* Channels that are shared by reference (the per-message error channel) live in a
  heap and are named by their address.
* A `context.Context` is the chain of `WithValue` frames above `context.Background()`.
* The broker SDK is a record of response functions; the calls a loop body issues are
  returned as a list.
* A blocking receive splits a function in two: the part before it and the part after it.
* A goroutine's `for` loop is given by one iteration, which returns whether the loop
  runs again or is left; a `select` is given by the case it took.
* Library functions outside the repository (`url.Parse`, `path.Dir`, `path.Base`,
  `strconv.Atoi`, the JSON codec, the broker clients) are parameters.
-/

/-! ## Go runtime primitives -/

/-- A Go `error` value: `none` is `nil`. -/
abbrev GoError := Option String

/-- A Go `[]byte`. -/
abbrev Bytes := List UInt8

/-- Outcome of an operation that may suspend the goroutine or crash the process. -/
inductive Step (α : Type) where
  | done (a : α)
  | blocks
  | panics
deriving Repr, DecidableEq

namespace Step

/-- Sequencing: a blocked or panicked operation stops everything after it. -/
def bind {α β : Type} (s : Step α) (f : α → Step β) : Step β :=
  match s with
  | .done a => f a
  | .blocks => .blocks
  | .panics => .panics

end Step

/-- State of a Go channel of element type `α`. -/
structure Chan (α : Type) where
  cap : Nat
  buf : List α
  closed : Bool
deriving Repr, DecidableEq

namespace Chan

/-- Channel creation `make(chan α, cap)`. -/
def make {α : Type} (cap : Nat) : Chan α :=
  { cap := cap, buf := [], closed := false }

/-- Channel send `c <- v`: panics on a closed channel, blocks when the buffer is full. -/
def send {α : Type} (c : Chan α) (v : α) : Step (Chan α) :=
  if c.closed then .panics
  else if c.buf.length < c.cap then .done { c with buf := c.buf ++ [v] }
  else .blocks

/-- Channel close `close(c)`: panics when the channel is already closed. -/
def close {α : Type} (c : Chan α) : Step (Chan α) :=
  if c.closed then .panics else .done { c with closed := true }

/-- Channel receive `<-c`: buffered values first; a closed and drained channel yields the
zero value `zero`; an open empty channel blocks. -/
def recv {α : Type} (zero : α) (c : Chan α) : Step (α × Chan α) :=
  match c.buf with
  | v :: rest => .done (v, { c with buf := rest })
  | [] => if c.closed then .done (zero, c) else .blocks

end Chan

/-- Heap of error channels (`chan error`), addressed by position. -/
abbrev ErrHeap := List (Chan GoError)

namespace ErrHeap

/-- Allocation `make(chan error, cap)`: returns the new heap and the channel's address. -/
def make (h : ErrHeap) (cap : Nat) : ErrHeap × Nat :=
  (h ++ [Chan.make cap], h.length)

/-- Send on the channel at address `ch`; a nil (unallocated) channel blocks forever. -/
def send (h : ErrHeap) (ch : Nat) (v : GoError) : Step ErrHeap :=
  match h[ch]? with
  | none => .blocks
  | some c => (c.send v).bind fun c1 => .done (h.set ch c1)

/-- Close the channel at address `ch`; closing a nil channel panics. -/
def close (h : ErrHeap) (ch : Nat) : Step ErrHeap :=
  match h[ch]? with
  | none => .panics
  | some c => c.close.bind fun c1 => .done (h.set ch c1)

/-- Receive from the channel at address `ch`; a nil channel blocks forever. -/
def recv (h : ErrHeap) (ch : Nat) : Step (GoError × ErrHeap) :=
  match h[ch]? with
  | none => .blocks
  | some c => (c.recv none).bind fun r => .done (r.1, h.set ch r.2)

end ErrHeap

/-! ## Package `net/url` -/

namespace url

/-- The parts of a parsed `url.URL` that the adapters read; `Hostname` is the result of
the method `Hostname()` (the host without port). -/
structure URL where
  Scheme : String
  Host : String
  Hostname : String
  Path : String
  Fragment : String
deriving Repr, DecidableEq

end url

/-! ## Package `options` -/

namespace options

/-- Go `PublishOptions`: the correlation ID is a `*string`. -/
structure PublishOptions where
  CorrelationID : Option String
deriving Repr, DecidableEq

/-- Go `aws.String`: a pointer to a copy of the string. -/
def awsString (s : String) : Option String := some s

/-- Go `aws.StringValue`: the pointed-to string, or the empty string for nil. -/
def awsStringValue (p : Option String) : String :=
  match p with
  | some s => s
  | none => ""

/-- Go `WithCorrelationID`: always a non-nil pointer, also for the empty string. -/
def WithCorrelationID (correlationID : String) : PublishOptions :=
  { CorrelationID := some correlationID }

/-- Go `deleteValue`. -/
structure deleteValue where
  shouldDelete : Bool
deriving Repr, DecidableEq

/-- Heap of `deleteValue` cells, addressed by position (targets of `*deleteValue`). -/
abbrev DelHeap := List deleteValue

/-- Context keys: the two unexported key types of the package, and any foreign key. -/
inductive CtxKey where
  | publishOptionsKey
  | deleteKey
  | other (n : Nat)
deriving Repr, DecidableEq

/-- Dynamic values stored in a context: a `PublishOptions` value, a `*deleteValue`
pointer, or a value of any other type. -/
inductive CtxVal where
  | publishOptions (opts : PublishOptions)
  | deleteValuePtr (addr : Nat)
  | other (n : Nat)
deriving Repr, DecidableEq

/-- Go `context.Context`, as the chain built by `context.WithValue`. -/
inductive Context where
  | Background
  | WithValue (parent : Context) (key : CtxKey) (val : CtxVal)
deriving Repr, DecidableEq

/-- Go `ctx.Value(key)`: the innermost value stored under `key`, if any. -/
def Context.Value : Context → CtxKey → Option CtxVal
  | .Background, _ => none
  | .WithValue parent k v, key => if k = key then some v else parent.Value key

/-- Go `Merge`: the last option whose pointer is non-nil wins. -/
def Merge (opts : List PublishOptions) : PublishOptions :=
  opts.foldl
    (fun p opt => if opt.CorrelationID ≠ none then { p with CorrelationID := opt.CorrelationID } else p)
    { CorrelationID := none }

/-- Go `PublishOptionsFromContext`: type assertion `.(PublishOptions)` on the stored value;
a failed assertion yields the zero value and `false`. -/
def PublishOptionsFromContext (ctx : Context) : PublishOptions × Bool :=
  match ctx.Value .publishOptionsKey with
  | some (.publishOptions opts) => (opts, true)
  | _ => ({ CorrelationID := none }, false)

/-- Go `ContextWithPublishOptions`. -/
def ContextWithPublishOptions (parent : Context) (opts : PublishOptions) : Context :=
  let r := PublishOptionsFromContext parent
  let opts := if r.2 then Merge [r.1, opts] else opts
  .WithValue parent .publishOptionsKey (.publishOptions opts)

/-- Go `WithCorrelationIDFromContext`. -/
def WithCorrelationIDFromContext (ctx : Context) : PublishOptions :=
  { CorrelationID := (PublishOptionsFromContext ctx).1.CorrelationID }

/-- Go `CorrelationIDFromContext`. -/
def CorrelationIDFromContext (ctx : Context) : String :=
  awsStringValue (PublishOptionsFromContext ctx).1.CorrelationID

/-- Go `SetMessageDelete`: type assertion `.(*deleteValue)` on the value under `deleteKey`;
writes through the pointer only when the assertion succeeds. -/
def SetMessageDelete (parent : Context) (shouldDelete : Bool) (heap : DelHeap) : DelHeap :=
  match parent.Value .deleteKey with
  | some (.deleteValuePtr addr) => heap.set addr { shouldDelete := shouldDelete }
  | _ => heap

/-- Go `GetMessageDeleteValue`: the pointed-to flag and whether a cell is attached. -/
def GetMessageDeleteValue (ctx : Context) (heap : DelHeap) : Bool × Bool :=
  match ctx.Value .deleteKey with
  | some (.deleteValuePtr addr) => ((heap.getD addr { shouldDelete := false }).shouldDelete, true)
  | _ => (false, false)

/-- The delete cells after the callbacks of a message on context `ctx` have left the
override flag alone (`none`), or have called `SetMessageDelete(ctx, b)` (`some b`). -/
def overrideState (ctx : Context) (flag : Option Bool) (heap : DelHeap) : DelHeap :=
  match flag with
  | none => heap
  | some b => SetMessageDelete ctx b heap

/-- Go `NewMessageContext`; `uuid` is the value returned by `uuid.NewString()`. -/
def NewMessageContext (uuid : String) : Context :=
  ContextWithPublishOptions .Background { CorrelationID := awsString uuid }

end options

/-! ## Package `queue` -/

namespace queue

/-- Go `errNoHandlers`. -/
def errNoHandlers : String := "no handlers"

/-- Go `QueueMessage`; `Err` is the address of the message's error channel. -/
structure QueueMessage where
  Data : Bytes
  Err : Nat
  Context : options.Context
deriving Repr, DecidableEq

/-- Go `QueueMessage.Close`: closes the error channel. -/
def QueueMessage.Close (m : QueueMessage) (errs : ErrHeap) : Step ErrHeap :=
  errs.close m.Err

/-- A registered callback `func(ctx, data) error`. Besides returning an error, a callback
can act on the queue packages only through `options.SetMessageDelete`, that is on the
heap of delete cells. -/
abbrev Callback := options.Context → Bytes → options.DelHeap → GoError × options.DelHeap

/-- Go `QueueHandler` (field `in` is spelled `in_`); `Visibility` is a `time.Duration`, a
number of nanoseconds. -/
structure QueueHandler where
  uri : String
  in_ : Chan QueueMessage
  Outgoing : Chan QueueMessage
  Done : Chan Bool
  Ready : Chan Bool
  handlers : List Callback
  Visibility : Int

/-- Go `NewQueueHandler`. -/
def NewQueueHandler (uri : String) (buffer : Nat) : QueueHandler :=
  { uri := uri
    in_ := Chan.make buffer
    Outgoing := Chan.make buffer
    Done := Chan.make 0
    Ready := Chan.make 1
    handlers := []
    Visibility := 0 }

/-- Go `QueueHandler.URI`. -/
def QueueHandler.URI (q : QueueHandler) : String := q.uri

/-- Go `QueueHandler.AddHandler`. -/
def QueueHandler.AddHandler (q : QueueHandler) (handler : Callback) : QueueHandler :=
  { q with handlers := q.handlers ++ [handler] }

/-- Go `QueueHandler.Close`: closes the `Done` channel. -/
def QueueHandler.Close (q : QueueHandler) : Step QueueHandler :=
  q.Done.close.bind fun d => .done { q with Done := d }

/-- Go `QueueHandler.Receive`: returns the handler, the heap of error channels and the
address of the returned channel. -/
def QueueHandler.Receive (q : QueueHandler) (errs : ErrHeap) (ctx : options.Context)
    (data : Bytes) : Step (QueueHandler × ErrHeap × Nat) :=
  if q.handlers.length = 0 then
    let a := errs.make 1
    (a.1.send a.2 (some errNoHandlers)).bind fun errs1 => .done (q, errs1, a.2)
  else
    let a := errs.make 1
    let msg : QueueMessage := { Data := data, Err := a.2, Context := ctx }
    (q.in_.send msg).bind fun in1 => .done ({ q with in_ := in1 }, a.1, msg.Err)

/-- First half of Go `QueueHandler.Publish` (up to and including `q.Outgoing <- m`): builds
the envelope and enqueues it. `uuid` is the freshly generated correlation ID. Returns the
handler, the heap and the address of the envelope's error channel. -/
def QueueHandler.PublishSend (q : QueueHandler) (errs : ErrHeap) (uuid : String)
    (data : Bytes) (opts : List options.PublishOptions) : Step (QueueHandler × ErrHeap × Nat) :=
  let a := errs.make 1
  let m : QueueMessage :=
    { Data := data
      Err := a.2
      Context := options.ContextWithPublishOptions (options.NewMessageContext uuid)
        (options.Merge opts) }
  (q.Outgoing.send m).bind fun out1 => .done ({ q with Outgoing := out1 }, a.1, a.2)

/-- Second half of Go `QueueHandler.Publish` (from `err := <-errCh`): waits on the error
channel and returns what it received (metrics calls are outside the model). -/
def QueueHandler.PublishAwait (errs : ErrHeap) (errCh : Nat) : Step (GoError × ErrHeap) :=
  (errs.recv errCh).bind fun r =>
    match r.1 with
    | some e => .done (some e, r.2)
    | none => .done (none, r.2)

/-- How far the processing loop of `Start` got with one message. -/
inductive RunStatus where
  | completed
  | blocked
  | panicked
deriving Repr, DecidableEq

/-- Trace of the processing loop on one message: how many callbacks were invoked, the
heaps it left, and whether it finished the chain, is suspended on a full error channel,
or crashed the process. -/
structure LoopRun where
  invoked : Nat
  errs : ErrHeap
  dels : options.DelHeap
  status : RunStatus
deriving Repr, DecidableEq

/-- Body of `case msg := <-q.in` in Go `QueueHandler.Start`: the range over `q.handlers`.
Each callback is invoked, then its error is sent on `msg.Err`, or `msg.Err` is closed
when it returned nil. `n` counts the callbacks invoked before. -/
def runHandlers : List Callback → QueueMessage → Nat → ErrHeap → options.DelHeap → LoopRun
  | [], _, n, errs, dels => { invoked := n, errs := errs, dels := dels, status := .completed }
  | handler :: rest, msg, n, errs, dels =>
    let r := handler msg.Context msg.Data dels
    let op := match r.1 with
      | some e => errs.send msg.Err (some e)
      | none => errs.close msg.Err
    match op with
    | .done errs1 => runHandlers rest msg (n + 1) errs1 r.2
    | .blocks => { invoked := n + 1, errs := errs, dels := r.2, status := .blocked }
    | .panics => { invoked := n + 1, errs := errs, dels := r.2, status := .panicked }

/-- One iteration of the loop of Go `QueueHandler.Start` when a message is available on
`q.in`: dequeues it and runs the chain. `none` when `q.in` is empty. -/
def QueueHandler.processNext (q : QueueHandler) (errs : ErrHeap) (dels : options.DelHeap) :
    Option (QueueHandler × LoopRun) :=
  match q.in_.buf with
  | [] => none
  | msg :: rest =>
    some ({ q with in_ := { q.in_ with buf := rest } }, runHandlers q.handlers msg 0 errs dels)

/-- Go `QueueMux`: the answer of the implementation's `Queue(uri)`, a handler pointer and
an error (an implementation may also crash). -/
abbrev QueueMux := String → Step (Option QueueHandler × GoError)

/-- Go `queueRegistry`, a map from scheme to mux: an association list in which the first
entry for a scheme is the current one. -/
abbrev Registry := List (String × QueueMux)

/-- Go `Register`: `queueRegistry[scheme] = queueMux`. -/
def Register (registry : Registry) (scheme : String) (queueMux : QueueMux) : Registry :=
  (scheme, queueMux) :: registry

/-- What a call of the package function `Queue` did: its result, and the mux calls it
made, each as the scheme of the mux and the URI passed. -/
structure QueueCall where
  result : Step (Option QueueHandler × GoError)
  invoked : List (String × String)

/-- Go `Queue` (package level); `parse` is `url.Parse`. -/
def Queue (parse : String → Except String url.URL) (registry : Registry) (uri : String) :
    QueueCall :=
  match parse uri with
  | .error e => { result := .done (none, some e), invoked := [] }
  | .ok u =>
    match registry.lookup u.Scheme with
    | none =>
      { result := .done (none, some ("queue mux with scheme " ++ u.Scheme ++ " not found"))
        invoked := [] }
    | some mux => { result := mux uri, invoked := [(u.Scheme, uri)] }

/-- Control after one iteration of a `for` loop: run the next iteration, or leave the loop. -/
inductive LoopCtl where
  | next
  | exit
deriving Repr, DecidableEq

/-- The case a `select` over the done signal and one channel took: the done signal (ready
once `Done` is closed), or a value received from the channel. -/
inductive Selected (α : Type) where
  | done
  | received (a : α)
deriving Repr, DecidableEq

end queue

/-! ## Package `sqs` -/

namespace sqs

/-- Go `sqsScheme`. -/
def sqsScheme : String := "sqs"

/-- Go `errIncorrectScheme`. -/
def errIncorrectScheme : String := "incorrect scheme, should be sqs"

/-- Go `correlationIDAttributeKey`. -/
def correlationIDAttributeKey : String := "correlation_id"

/-- SDK `sqs.MessageAttributeValue`. -/
structure MessageAttributeValue where
  StringValue : Option String
  DataType : Option String
deriving Repr, DecidableEq

/-- SDK `sqs.Message`; the body is a Go string, kept as its bytes; the attribute map is an
association list. -/
structure Message where
  Body : Option Bytes
  ReceiptHandle : Option String
  MessageAttributes : List (String × MessageAttributeValue)
deriving Repr, DecidableEq

/-- SDK `sqs.GetQueueUrlInput`. -/
structure GetQueueUrlInput where
  QueueName : Option String
deriving Repr, DecidableEq

/-- SDK `sqs.GetQueueUrlOutput`. -/
structure GetQueueUrlOutput where
  QueueUrl : Option String
deriving Repr, DecidableEq

/-- SDK `sqs.SendMessageInput`. -/
structure SendMessageInput where
  MessageBody : Option Bytes
  MessageAttributes : List (String × MessageAttributeValue)
  QueueUrl : Option String
deriving Repr, DecidableEq

/-- SDK `sqs.DeleteMessageInput`. -/
structure DeleteMessageInput where
  QueueUrl : Option String
  ReceiptHandle : Option String
deriving Repr, DecidableEq

/-- SDK `sqs.GetQueueAttributesInput`. -/
structure GetQueueAttributesInput where
  QueueUrl : Option String
  AttributeNames : List (Option String)
deriving Repr, DecidableEq

/-- SDK `sqs.GetQueueAttributesOutput`: the attribute map, `map[string]*string`. -/
structure GetQueueAttributesOutput where
  Attributes : List (String × Option String)
deriving Repr, DecidableEq

/-- SDK `sqs.ReceiveMessageInput`. -/
structure ReceiveMessageInput where
  WaitTimeSeconds : Option Int
  QueueUrl : Option String
  MessageAttributeNames : List (Option String)
deriving Repr, DecidableEq

/-- SDK `sqs.ReceiveMessageOutput`. -/
structure ReceiveMessageOutput where
  Messages : List Message
deriving Repr, DecidableEq

/-- The part of `sqsiface.SQSAPI` the adapter calls: each call answers with its output
(always allocated) and its error. -/
structure SQSAPI where
  GetQueueUrl : GetQueueUrlInput → GetQueueUrlOutput × GoError
  SendMessage : SendMessageInput → GoError
  DeleteMessage : DeleteMessageInput → GoError
  GetQueueAttributes : GetQueueAttributesInput → GetQueueAttributesOutput × GoError
  ReceiveMessage : ReceiveMessageInput → ReceiveMessageOutput × GoError

/-- A call made to the broker. -/
inductive BrokerCall where
  | GetQueueUrl (i : GetQueueUrlInput)
  | GetQueueAttributes (i : GetQueueAttributesInput)
  | ReceiveMessage (i : ReceiveMessageInput)
  | SendMessage (i : SendMessageInput)
  | DeleteMessage (i : DeleteMessageInput)
deriving Repr, DecidableEq

/-- Go `safelyGetCorrelationID`. -/
def safelyGetCorrelationID (msg : Message) : String :=
  match msg.MessageAttributes.lookup correlationIDAttributeKey with
  | some attr => options.awsStringValue attr.StringValue
  | none => ""

/-- Head of Go `pollForIncomingMessages` and `pollForOutgoingMessages` (before the
goroutine): parse the URI, check the scheme, resolve the queue URL for the host.
`parse` is `url.Parse`. -/
def resolveQueueUrl (parse : String → Except String url.URL) (svc : SQSAPI) (uri : String) :
    Except String (Option String) :=
  match parse uri with
  | .error e => .error e
  | .ok u =>
    if u.Scheme ≠ sqsScheme then .error errIncorrectScheme
    else
      match svc.GetQueueUrl { QueueName := options.awsString u.Hostname } with
      | (_, some e) => .error e
      | (res, none) => .ok res.QueueUrl

/-- The context the incoming loop builds for a received message. -/
def incomingContext (msg : Message) : options.Context :=
  options.ContextWithPublishOptions .Background
    (options.Merge [options.WithCorrelationID (safelyGetCorrelationID msg)])

/-- The payload the incoming loop hands to `Receive`: `[]byte(aws.StringValue(msg.Body))`. -/
def incomingData (msg : Message) : Bytes :=
  match msg.Body with
  | some b => b
  | none => []

/-- Body of the incoming loop for one message, after `err := <-handler.Receive(ctx, ...)`
has delivered `err`; `dels` is the state of the delete cells at that point. Returns the
`DeleteMessage` calls issued for the message. -/
def afterReceive (queueUrl : Option String) (msg : Message) (ctx : options.Context)
    (err : GoError) (dels : options.DelHeap) : List DeleteMessageInput :=
  if err ≠ none then []
  else
    let shouldDelete := decide (err = none)
    let r := options.GetMessageDeleteValue ctx dels
    let shouldDelete := if r.2 then r.1 else shouldDelete
    if shouldDelete then [{ QueueUrl := queueUrl, ReceiptHandle := msg.ReceiptHandle }]
    else []

/-- Body of the incoming loop for one message, up to the call of `handler.Receive`: the
context is built from the message and the body is handed over (sqs.go 127-130). -/
def receiveMessage (q : queue.QueueHandler) (errs : ErrHeap) (msg : Message) :
    Step (queue.QueueHandler × ErrHeap × Nat) :=
  q.Receive errs (incomingContext msg) (incomingData msg)

/-- Body of the incoming loop for one message, from the blocking receive
`err := <-ch` on the channel `Receive` returned to the end (sqs.go 130-150). Returns the
`DeleteMessage` calls issued for the message and the heap. -/
def awaitAndDelete (queueUrl : Option String) (msg : Message) (errs : ErrHeap) (ch : Nat)
    (dels : options.DelHeap) : Step (List DeleteMessageInput × ErrHeap) :=
  (errs.recv ch).bind fun r =>
    .done (afterReceive queueUrl msg (incomingContext msg) r.1 dels, r.2)

/-- The message attributes the outgoing loop attaches to an envelope. -/
def outgoingAttributes (ctx : options.Context) : List (String × MessageAttributeValue) :=
  let r := options.PublishOptionsFromContext ctx
  if r.2 then
    [(correlationIDAttributeKey,
      { StringValue := r.1.CorrelationID, DataType := options.awsString "String" })]
  else []

/-- The `SendMessageInput` the outgoing loop builds for an envelope. -/
def sendMessageInput (queueUrl : Option String) (outgoing : queue.QueueMessage) :
    SendMessageInput :=
  { MessageBody := some outgoing.Data
    MessageAttributes := outgoingAttributes outgoing.Context
    QueueUrl := queueUrl }

/-- Body of `case outgoing := <-handler.Outgoing` in the outgoing loop: send, then on
failure forward the error and close the error channel, on success only close it. -/
def outgoingIteration (svc : SQSAPI) (queueUrl : Option String) (outgoing : queue.QueueMessage)
    (errs : ErrHeap) : Step ErrHeap :=
  match svc.SendMessage (sendMessageInput queueUrl outgoing) with
  | some e => (errs.send outgoing.Err (some e)).bind fun errs1 => outgoing.Close errs1
  | none => outgoing.Close errs

/-- Go `defaultBuffer`. -/
def defaultBuffer : Nat := 1000

/-- What one of the two `pollFor...Messages` functions did before returning: its error,
the broker calls it made, and the queue URL its goroutine was started with, if it was. -/
structure Setup where
  err : GoError
  calls : List BrokerCall
  loop : Option (Option String)
deriving Repr, DecidableEq

/-- Go `pollForIncomingMessages`, up to the start of the goroutine. -/
def pollForIncomingMessages (parse : String → Except String url.URL) (svc : SQSAPI)
    (uri : String) : Setup :=
  match parse uri with
  | .error e => { err := some e, calls := [], loop := none }
  | .ok u =>
    if u.Scheme ≠ sqsScheme then { err := some errIncorrectScheme, calls := [], loop := none }
    else
      match svc.GetQueueUrl { QueueName := options.awsString u.Hostname } with
      | (_, some e) =>
        { err := some e
          calls := [.GetQueueUrl { QueueName := options.awsString u.Hostname }]
          loop := none }
      | (res, none) =>
        { err := none
          calls := [.GetQueueUrl { QueueName := options.awsString u.Hostname }]
          loop := some res.QueueUrl }

/-- Go `pollForOutgoingMessages`, up to the start of the goroutine. -/
def pollForOutgoingMessages (parse : String → Except String url.URL) (svc : SQSAPI)
    (uri : String) : Setup :=
  match parse uri with
  | .error e => { err := some e, calls := [], loop := none }
  | .ok u =>
    if u.Scheme ≠ sqsScheme then { err := some errIncorrectScheme, calls := [], loop := none }
    else
      match svc.GetQueueUrl { QueueName := options.awsString u.Hostname } with
      | (_, some e) =>
        { err := some e
          calls := [.GetQueueUrl { QueueName := options.awsString u.Hostname }]
          loop := none }
      | (res, none) =>
        { err := none
          calls := [.GetQueueUrl { QueueName := options.awsString u.Hostname }]
          loop := some res.QueueUrl }

/-- The `GetQueueUrlInput` built for a parsed URI: the queue name is the host name. -/
def getQueueUrlInput (u : url.URL) : GetQueueUrlInput :=
  { QueueName := options.awsString u.Hostname }

/-- The `GetQueueAttributesInput` of `getVisibility`: all attributes of the resolved queue. -/
def getQueueAttributesInput (res : GetQueueUrlOutput) : GetQueueAttributesInput :=
  { QueueUrl := res.QueueUrl, AttributeNames := [options.awsString "All"] }

/-- The `VisibilityTimeout` entry of the attribute map the broker answers to
`getVisibility`: absent, nil, or a text. -/
def visibilityAttribute (svc : SQSAPI) (u : url.URL) : Option (Option String) :=
  (svc.GetQueueAttributes
    (getQueueAttributesInput (svc.GetQueueUrl (getQueueUrlInput u)).1)).1.Attributes.lookup
      "VisibilityTimeout"

/-- The broker calls of `getVisibility` on a URI with the right scheme, in order. -/
def discoveryCalls (svc : SQSAPI) (u : url.URL) : List BrokerCall :=
  [.GetQueueUrl (getQueueUrlInput u),
    .GetQueueAttributes (getQueueAttributesInput (svc.GetQueueUrl (getQueueUrlInput u)).1)]

/-- Go `int64` wrap-around of an integer result. -/
def wrapInt64 (x : Int) : Int := (x + 2 ^ 63) % 2 ^ 64 - 2 ^ 63

/-- Go `time.Second`, in nanoseconds. -/
def timeSecond : Int := 1000000000

/-- Result of Go `getVisibility`: the duration, the error, and the broker calls made. -/
structure Discovery where
  duration : Int
  err : GoError
  calls : List BrokerCall
deriving Repr, DecidableEq

/-- Go `getVisibility`; `atoi` is `strconv.Atoi`. The errors of the two broker calls are
only logged. Dereferencing the `VisibilityTimeout` entry panics when the entry is missing
or nil. -/
def getVisibility (parse : String → Except String url.URL) (atoi : String → Except String Int)
    (svc : SQSAPI) (uri : String) : Step Discovery :=
  match parse uri with
  | .error e => .done { duration := 0, err := some e, calls := [] }
  | .ok u =>
    if u.Scheme ≠ sqsScheme then
      .done { duration := 0, err := some errIncorrectScheme, calls := [] }
    else
      let i1 := getQueueUrlInput u
      let res := (svc.GetQueueUrl i1).1
      let i2 := getQueueAttributesInput res
      let attributes := (svc.GetQueueAttributes i2).1
      match attributes.Attributes.lookup "VisibilityTimeout" with
      | some (some text) =>
        match atoi text with
        | .error e =>
          .done { duration := 0, err := some e, calls := [.GetQueueUrl i1, .GetQueueAttributes i2] }
        | .ok visibility =>
          .done { duration := wrapInt64 (timeSecond * visibility), err := none
                  calls := [.GetQueueUrl i1, .GetQueueAttributes i2] }
      | _ => .panics

/-- What `SQSQueueMux.Queue` returned, and the broker calls made before it returned. -/
structure QueueOutcome where
  handler : Option queue.QueueHandler
  err : GoError
  calls : List BrokerCall

/-- Go `SQSQueueMux.Queue`. -/
def SQSQueueMux.Queue (parse : String → Except String url.URL)
    (atoi : String → Except String Int) (svc : SQSAPI) (uri : String) : Step QueueOutcome :=
  let handler := queue.NewQueueHandler uri defaultBuffer
  let incoming := pollForIncomingMessages parse svc uri
  if incoming.err ≠ none then
    .done { handler := none, err := incoming.err, calls := incoming.calls }
  else
    let outgoing := pollForOutgoingMessages parse svc uri
    if outgoing.err ≠ none then
      .done { handler := none, err := outgoing.err, calls := incoming.calls ++ outgoing.calls }
    else
      (getVisibility parse atoi svc uri).bind fun d =>
        if d.err ≠ none then
          .done { handler := none, err := d.err
                  calls := incoming.calls ++ outgoing.calls ++ d.calls }
        else
          .done { handler := some { handler with Visibility := d.duration }, err := none
                  calls := incoming.calls ++ outgoing.calls ++ d.calls }

/-- The `ReceiveMessageInput` of the incoming loop's poll. -/
def receiveMessageInput (queueUrl : Option String) : ReceiveMessageInput :=
  { WaitTimeSeconds := some 10
    QueueUrl := queueUrl
    MessageAttributeNames := [options.awsString correlationIDAttributeKey] }

/-- What one iteration of the incoming loop did. -/
structure PollCycle where
  observedDone : Bool
  polls : List ReceiveMessageInput
  deletes : List DeleteMessageInput
  ctl : queue.LoopCtl
deriving Repr, DecidableEq

/-- One iteration of the `for` loop of the incoming goroutine. The `select` with a
`default` case takes the done case exactly when `Done` is closed; its `break` leaves the
`select` statement, after which the iteration goes on to the poll. `outcome msg` is what
`<-handler.Receive(ctx, body)` delivers for `msg`, `dels` the delete cells at that point.
A failed poll sleeps and continues; after the range over the messages the loop repeats. -/
def incomingCycle (svc : SQSAPI) (queueUrl : Option String) (q : queue.QueueHandler)
    (outcome : Message → GoError) (dels : options.DelHeap) : PollCycle :=
  let observed := q.Done.closed
  match svc.ReceiveMessage (receiveMessageInput queueUrl) with
  | (_, some _) =>
    { observedDone := observed, polls := [receiveMessageInput queueUrl], deletes := []
      ctl := .next }
  | (msgs, none) =>
    { observedDone := observed, polls := [receiveMessageInput queueUrl]
      deletes := msgs.Messages.flatMap fun msg =>
        afterReceive queueUrl msg (incomingContext msg) (outcome msg) dels
      ctl := .next }

/-- What one iteration of the outgoing loop did: the `SendMessage` calls made, the heap of
error channels, and the loop control. -/
structure SendCycle where
  sends : List SendMessageInput
  errs : Step ErrHeap
  ctl : queue.LoopCtl
deriving Repr, DecidableEq

/-- One iteration of the `for` loop of the outgoing goroutine, for the case its `select`
took: the done case runs `break LOOP`; an envelope is sent and the loop continues. -/
def outgoingSelect (svc : SQSAPI) (queueUrl : Option String)
    (selected : queue.Selected queue.QueueMessage) (errs : ErrHeap) : SendCycle :=
  match selected with
  | .done => { sends := [], errs := .done errs, ctl := .exit }
  | .received outgoing =>
    { sends := [sendMessageInput queueUrl outgoing]
      errs := outgoingIteration svc queueUrl outgoing errs
      ctl := .next }

end sqs

/-! ## Package `strings` -/

namespace strings

/-- Go `strings.TrimPrefix`: `s` without the leading `pre`, or `s` itself when it does not
start with `pre`. -/
def TrimPrefix (s pre : String) : String :=
  if pre.data.isPrefixOf s.data then String.mk (s.data.drop pre.data.length) else s

end strings

/-! ## Package `nsq` -/

namespace nsq

/-- Go `defaultBuffer`. -/
def defaultBuffer : Nat := 1000

/-- Go `errIncorrectScheme`. -/
def errIncorrectScheme : String := "incorrect scheme, should be nsqd or nsqlookupd"

/-- Go `nsqlookupdScheme`. -/
def nsqlookupdScheme : String := "nsqlookupd"

/-- Go `nsqdScheme`. -/
def nsqdScheme : String := "nsqd"

/-- Go `NSQMessage`: the wire envelope. -/
structure NSQMessage where
  CorrelationID : String
  RawMessage : Bytes
deriving Repr, DecidableEq

/-- Go `NSQQueueMux`. -/
structure NSQQueueMux where
  useNSQLookupd : Bool
deriving Repr, DecidableEq

/-- Go `newNSQQueueMux`. -/
def newNSQQueueMux (useNSQLookupd : Bool) : NSQQueueMux :=
  { useNSQLookupd := useNSQLookupd }

/-- The library functions the adapter calls: `url.Parse`, `path.Dir`, `path.Base`,
`nsq.NewConsumer` (topic, channel) and `nsq.NewProducer` (address), the last two by the
error they return, `Producer.Publish` (topic, body), and `json.Marshal` and
`json.Unmarshal` on the wire envelope. -/
structure Lib where
  parse : String → Except String url.URL
  pathDir : String → String
  pathBase : String → String
  NewConsumer : String → String → GoError
  NewProducer : String → GoError
  Publish : String → Bytes → GoError
  Marshal : NSQMessage → Except String Bytes
  Unmarshal : Bytes → Except String NSQMessage

/-- What `pollForIncomingMessages` did before returning: its error, the `NewConsumer`
calls it made (topic, channel), and the topic and channel its goroutine was started
with, if it was. -/
structure IncomingSetup where
  err : GoError
  consumers : List (String × String)
  loop : Option (String × String)
deriving Repr, DecidableEq

/-- The variable `channel` of `pollForIncomingMessages` at the comparison with the topic:
the base component of the path without a leading slash, with `#ephemeral` appended when
the fragment is `ephemeral`. -/
def incomingChannel (lib : Lib) (u : url.URL) : String :=
  let channel := strings.TrimPrefix (lib.pathBase u.Path) "/"
  if u.Fragment = "ephemeral" then channel ++ "#ephemeral" else channel

/-- The variable `topic` of `pollForIncomingMessages` at the comparison with the channel:
the directory component of the path without a leading slash, replaced by the channel when
it is empty. -/
def incomingTopic (lib : Lib) (u : url.URL) : String :=
  let topic := strings.TrimPrefix (lib.pathDir u.Path) "/"
  if topic = "" then incomingChannel lib u else topic

/-- Go `NSQQueueMux.pollForIncomingMessages`, up to the start of the goroutine. -/
def NSQQueueMux.pollForIncomingMessages (_s : NSQQueueMux) (lib : Lib) (uri : String) :
    IncomingSetup :=
  match lib.parse uri with
  | .error e => { err := some e, consumers := [], loop := none }
  | .ok u =>
    if u.Scheme ≠ nsqdScheme ∧ u.Scheme ≠ nsqlookupdScheme then
      { err := some errIncorrectScheme, consumers := [], loop := none }
    else
      let channel := incomingChannel lib u
      let topic := incomingTopic lib u
      if topic = channel then { err := none, consumers := [], loop := none }
      else
        match lib.NewConsumer topic channel with
        | some e => { err := some e, consumers := [(topic, channel)], loop := none }
        | none => { err := none, consumers := [(topic, channel)], loop := some (topic, channel) }

/-- The variable `topic` of `pollForOutgoingMessages`: the directory component of the path
without a leading slash. -/
def outgoingTopic (lib : Lib) (u : url.URL) : String :=
  strings.TrimPrefix (lib.pathDir u.Path) "/"

/-- What `pollForOutgoingMessages` did before returning: its error, the `NewProducer`
calls it made (address), and the topic and address its goroutine was started with, if it
was. -/
structure OutgoingSetup where
  err : GoError
  producers : List String
  loop : Option (String × String)
deriving Repr, DecidableEq

/-- Go `NSQQueueMux.pollForOutgoingMessages`, up to the start of the goroutine. -/
def NSQQueueMux.pollForOutgoingMessages (_s : NSQQueueMux) (lib : Lib) (uri : String) :
    OutgoingSetup :=
  match lib.parse uri with
  | .error e => { err := some e, producers := [], loop := none }
  | .ok u =>
    if u.Scheme ≠ nsqdScheme then
      if u.Scheme = nsqlookupdScheme then { err := none, producers := [], loop := none }
      else { err := some errIncorrectScheme, producers := [], loop := none }
    else
      let topic := outgoingTopic lib u
      match lib.NewProducer u.Host with
      | some e => { err := some e, producers := [u.Host], loop := none }
      | none => { err := none, producers := [u.Host], loop := some (topic, u.Host) }

/-- What `NSQQueueMux.Queue` returned, with what its two setup functions did (the
outgoing one is absent when the incoming one failed). -/
structure QueueOutcome where
  handler : Option queue.QueueHandler
  err : GoError
  incoming : IncomingSetup
  outgoing : Option OutgoingSetup

/-- Go `NSQQueueMux.Queue`. -/
def NSQQueueMux.Queue (s : NSQQueueMux) (lib : Lib) (uri : String) : QueueOutcome :=
  let handler := queue.NewQueueHandler uri defaultBuffer
  let incoming := s.pollForIncomingMessages lib uri
  if incoming.err ≠ none then
    { handler := none, err := incoming.err, incoming := incoming, outgoing := none }
  else
    let outgoing := s.pollForOutgoingMessages lib uri
    if outgoing.err ≠ none then
      { handler := none, err := outgoing.err, incoming := incoming, outgoing := some outgoing }
    else
      { handler := some handler, err := none, incoming := incoming, outgoing := some outgoing }

/-- The context the consumer's message handler builds for a decoded envelope; `uuid` is
the ID generated by `NewMessageContext`. -/
def incomingContext (uuid : String) (m : NSQMessage) : options.Context :=
  options.ContextWithPublishOptions (options.NewMessageContext uuid)
    (options.Merge [options.WithCorrelationID m.CorrelationID])

/-- The consumer's message handler, up to the call of `handler.Receive`: the decoding
error it returns, or the context and payload it passes to `Receive`. -/
def handleMessage (lib : Lib) (uuid : String) (body : Bytes) :
    Except String (options.Context × Bytes) :=
  match lib.Unmarshal body with
  | .error e => .error e
  | .ok m => .ok (incomingContext uuid m, m.RawMessage)

/-- The consumer's message handler through the call of `handler.Receive`: the decoding
error it returns, or the call `handler.Receive(ctx, m.RawMessage)` (nsq.go 91-104). -/
def receiveMessage (lib : Lib) (uuid : String) (q : queue.QueueHandler) (errs : ErrHeap)
    (body : Bytes) : Except String (Step (queue.QueueHandler × ErrHeap × Nat)) :=
  match handleMessage lib uuid body with
  | .error e => .error e
  | .ok r => .ok (q.Receive errs r.1 r.2)

/-- One pass of the `for` loop of the incoming goroutine after a successful connect: the
`select` waits for the consumer's stop signal or the done signal, and both cases run
`break LOOP`. `stopped` tells which of the two fired. A failed connect sleeps and runs
`continue LOOP`. -/
def incomingPass (connectErr : GoError) (_stopped : Bool) : queue.LoopCtl :=
  match connectErr with
  | some _ => .next
  | none => .exit

/-- The wire envelope the outgoing loop builds for an envelope of the outbound buffer. -/
def outgoingMessage (outgoing : queue.QueueMessage) : NSQMessage :=
  let r := options.PublishOptionsFromContext outgoing.Context
  let correlationID :=
    if r.2 then
      match r.1.CorrelationID with
      | some c => if c ≠ "" then c else ""
      | none => ""
    else ""
  { CorrelationID := correlationID, RawMessage := outgoing.Data }

/-- What one iteration of the outgoing loop did: the `Publish` calls made (topic, body),
the heap of error channels, and the loop control. -/
structure PublishCycle where
  published : List (String × Bytes)
  errs : Step ErrHeap
  ctl : queue.LoopCtl
deriving Repr, DecidableEq

/-- Body of `case outgoing := <-handler.Outgoing` in the outgoing loop. -/
def outgoingIteration (lib : Lib) (topic : String) (outgoing : queue.QueueMessage)
    (errs : ErrHeap) : PublishCycle :=
  match lib.Marshal (outgoingMessage outgoing) with
  | .error e =>
    { published := []
      errs := (errs.send outgoing.Err (some e)).bind fun errs1 => outgoing.Close errs1
      ctl := .next }
  | .ok byt =>
    match lib.Publish topic byt with
    | some e =>
      { published := [(topic, byt)]
        errs := (errs.send outgoing.Err (some e)).bind fun errs1 => outgoing.Close errs1
        ctl := .next }
    | none => { published := [(topic, byt)], errs := outgoing.Close errs, ctl := .next }

/-- One iteration of the `for` loop of the outgoing goroutine, for the case its `select`
took: the done case runs `break LOOP`. -/
def outgoingSelect (lib : Lib) (topic : String) (selected : queue.Selected queue.QueueMessage)
    (errs : ErrHeap) : PublishCycle :=
  match selected with
  | .done => { published := [], errs := .done errs, ctl := .exit }
  | .received outgoing => outgoingIteration lib topic outgoing errs

end nsq

/-! ## Package `mem` -/

namespace mem

/-- Go `defaultBuffer`. -/
def defaultBuffer : Nat := 1000

/-- Go `MemQueueMessage`. -/
structure MemQueueMessage where
  data : Bytes
  ctx : options.Context
deriving Repr, DecidableEq

/-- Go `MemQueueMux`: the map from host to shared channel (the mutex only serialises map
access). A channel, once in the map, is never replaced, so a loop that holds the channel
of a host holds the map's current entry for that host. -/
structure MemQueueMux where
  pipe : String → Option (Chan MemQueueMessage)

/-- Map store `s.pipe[host] = ch`, also used to write back the new state of a channel. -/
def MemQueueMux.store (s : MemQueueMux) (host : String) (ch : Chan MemQueueMessage) :
    MemQueueMux :=
  { pipe := fun h => if h = host then some ch else s.pipe h }

/-- The messages waiting on the channel of `host`, oldest first (none when the map has no
channel for the host). -/
def MemQueueMux.waiting (s : MemQueueMux) (host : String) : List MemQueueMessage :=
  match s.pipe host with
  | some ch => ch.buf
  | none => []

/-- Go `DefaultMemQueueMux`: an empty map. -/
def DefaultMemQueueMux : MemQueueMux := { pipe := fun _ => none }

/-- What `pollForIncomingMessages` did before returning: the mux, its error, whether its
goroutine was started, and the value of the variable `pipe` the goroutine holds: the
channel of a host, or the nil channel (`none`) when the map had no channel for the host
at the assignment `pipe := s.pipe[u.Host]`. -/
structure IncomingSetup where
  mux : MemQueueMux
  err : GoError
  started : Bool
  pipe : Option String

/-- Go `MemQueueMux.pollForIncomingMessages`, up to the start of the goroutine: the channel
of the host is created when the map has none, then read from the map into `pipe`. -/
def MemQueueMux.pollForIncomingMessages (s : MemQueueMux)
    (parse : String → Except String url.URL) (uri : String) : IncomingSetup :=
  match parse uri with
  | .error e => { mux := s, err := some e, started := false, pipe := none }
  | .ok u =>
    let s1 :=
      match s.pipe u.Host with
      | none => s.store u.Host (Chan.make defaultBuffer)
      | some _ => s
    { mux := s1, err := none, started := true, pipe := (s1.pipe u.Host).map fun _ => u.Host }

/-- The receive `case msg := <-pipe` of the incoming loop on the channel it holds: the
oldest waiting message; a nil or empty channel blocks. -/
def MemQueueMux.incomingTake (s : MemQueueMux) (pipe : Option String) :
    Step (MemQueueMessage × MemQueueMux) :=
  match pipe with
  | none => .blocks
  | some host =>
    match s.pipe host with
    | none => .blocks
    | some ch =>
      (ch.recv { data := [], ctx := .Background }).bind fun r => .done (r.1, s.store host r.2)

/-- Body of `case msg := <-pipe`, up to the call of `handler.Receive`: the message's
context and data are handed over (mem.go 66-67). -/
def receiveMessage (q : queue.QueueHandler) (errs : ErrHeap) (msg : MemQueueMessage) :
    Step (queue.QueueHandler × ErrHeap × Nat) :=
  q.Receive errs msg.ctx msg.data

/-- Body of `case msg := <-pipe` in the incoming loop, after `err := <-handler.Receive(...)`
has delivered `err`; `dels` is the state of the delete cells at that point. Returns the
messages handed to the requeue goroutine. -/
def afterReceive (msg : MemQueueMessage) (err : GoError) (dels : options.DelHeap) :
    List MemQueueMessage :=
  let shouldDelete := decide (err = none)
  let r := options.GetMessageDeleteValue msg.ctx dels
  let shouldDelete := if r.2 then r.1 else shouldDelete
  if !shouldDelete then [msg] else []

/-- Body of `case msg := <-pipe`, from the blocking receive `err := <-ch` on the channel
`Receive` returned to the end (mem.go 67-82). Returns the messages handed to the requeue
goroutine and the heap. -/
def awaitAndRequeue (msg : MemQueueMessage) (errs : ErrHeap) (ch : Nat)
    (dels : options.DelHeap) : Step (List MemQueueMessage × ErrHeap) :=
  (errs.recv ch).bind fun r => .done (afterReceive msg r.1 dels, r.2)

/-- The requeue goroutine, after its sleep: `pipe <- msg` on the channel of `host`. -/
def MemQueueMux.requeue (s : MemQueueMux) (host : String) (msg : MemQueueMessage) :
    Step MemQueueMux :=
  match s.pipe host with
  | none => .blocks
  | some ch => (ch.send msg).bind fun ch1 => .done (s.store host ch1)

/-- What one iteration of the incoming loop did: the messages handed to the requeue
goroutine, and the loop control. -/
structure ReceiveCycle where
  requeued : List MemQueueMessage
  ctl : queue.LoopCtl
deriving Repr, DecidableEq

/-- One iteration of the `for` loop of the incoming goroutine, for the case its `select`
took: the done case runs `break LOOP`; for a message, `outcome` is what
`<-handler.Receive(msg.ctx, msg.data)` delivers. -/
def incomingSelect (selected : queue.Selected MemQueueMessage) (outcome : GoError)
    (dels : options.DelHeap) : ReceiveCycle :=
  match selected with
  | .done => { requeued := [], ctl := .exit }
  | .received msg => { requeued := afterReceive msg outcome dels, ctl := .next }

/-- Go `MemQueueMux.pollForOutgoingMessages`, up to the start of the goroutine: the error,
and the host its goroutine pushes to, if it was started. -/
def MemQueueMux.pollForOutgoingMessages (_s : MemQueueMux)
    (parse : String → Except String url.URL) (uri : String) : GoError × Option String :=
  match parse uri with
  | .error e => (some e, none)
  | .ok u => (none, some u.Host)

/-- Body of `case outgoing := <-handler.Outgoing` in the outgoing loop: push the payload
with a new message context onto the channel of `host`, creating the channel when the map
has none, then close the envelope's error channel. `uuid` is the generated ID. -/
def MemQueueMux.outgoingIteration (s : MemQueueMux) (host : String) (uuid : String)
    (outgoing : queue.QueueMessage) (errs : ErrHeap) : Step (MemQueueMux × ErrHeap) :=
  let m : MemQueueMessage := { data := outgoing.Data, ctx := options.NewMessageContext uuid }
  let pushed : Step MemQueueMux :=
    match s.pipe host with
    | some ch => (ch.send m).bind fun ch1 => .done (s.store host ch1)
    | none => ((Chan.make defaultBuffer).send m).bind fun ch1 => .done (s.store host ch1)
  pushed.bind fun s1 => (outgoing.Close errs).bind fun errs1 => .done (s1, errs1)

/-- What one iteration of the outgoing loop did: the mux and heap it left, and the loop
control. -/
structure PushCycle where
  state : Step (MemQueueMux × ErrHeap)
  ctl : queue.LoopCtl

/-- One iteration of the `for` loop of the outgoing goroutine, for the case its `select`
took. The done case runs an unlabelled `break`, which leaves the `select` statement: the
`for` loop runs its next iteration. -/
def MemQueueMux.outgoingSelect (s : MemQueueMux) (host : String) (uuid : String)
    (selected : queue.Selected queue.QueueMessage) (errs : ErrHeap) : PushCycle :=
  match selected with
  | .done => { state := .done (s, errs), ctl := .next }
  | .received outgoing => { state := s.outgoingIteration host uuid outgoing errs, ctl := .next }

/-- Go `MemQueueMux.Queue`. -/
def MemQueueMux.Queue (s : MemQueueMux) (parse : String → Except String url.URL) (uri : String) :
    MemQueueMux × Option queue.QueueHandler × GoError :=
  let handler := queue.NewQueueHandler uri defaultBuffer
  let incoming := s.pollForIncomingMessages parse uri
  if incoming.err ≠ none then (incoming.mux, none, incoming.err)
  else
    let outgoing := incoming.mux.pollForOutgoingMessages parse uri
    if outgoing.1 ≠ none then (incoming.mux, none, outgoing.1)
    else (incoming.mux, some handler, none)

end mem

/-! ## Fixtures used by the concrete evaluations -/

namespace fixtures

/-- A callback that returns nil and touches nothing (the no-op handler of `sqs_test.go`). -/
def callbackNil : queue.Callback := fun _ _ dels => (none, dels)

/-- A callback that fails with the error `e`. -/
def callbackErr (e : String) : queue.Callback := fun _ _ dels => (some e, dels)

/-- A callback that calls `SetMessageDelete(ctx, b)` and then returns `err`. -/
def callbackSetDelete (b : Bool) (err : GoError) : queue.Callback :=
  fun ctx _ dels => (err, options.SetMessageDelete ctx b dels)

/-- The broker double `TestSQS` of `sqs_test.go`, extended with a `SendMessage` that
answers `sendErr`. -/
def TestSQS (queueUrl : String) (sendErr : GoError) : sqs.SQSAPI :=
  { GetQueueUrl := fun _ => ({ QueueUrl := options.awsString queueUrl }, none)
    SendMessage := fun _ => sendErr
    DeleteMessage := fun _ => none
    GetQueueAttributes := fun _ =>
      ({ Attributes := [("VisibilityTimeout", options.awsString "30")] }, none)
    ReceiveMessage := fun _ =>
      ({ Messages := [{ Body := none, ReceiptHandle := options.awsString "somehandle"
                        MessageAttributes := [] }] }, none) }

/-- What `url.Parse` answers for `sqs://someuri`. -/
def parseSomeuri : String → Except String url.URL :=
  fun _ => .ok { Scheme := "sqs", Host := "someuri", Hostname := "someuri", Path := "", Fragment := "" }

/-- The message `TestSQS.ReceiveMessage` answers with. -/
def testMessage (receiptHandle : String) : sqs.Message :=
  { Body := none, ReceiptHandle := options.awsString receiptHandle, MessageAttributes := [] }

/-- A four-byte payload. -/
def payload : Bytes := [116, 101, 115, 116]

/-- A handler with two callbacks: the first returns nil, the second fails. -/
def handlerNilErr : queue.QueueHandler :=
  ((queue.NewQueueHandler "sqs://someuri" 1000).AddHandler callbackNil).AddHandler
    (callbackErr "boom")

/-- A handler with three callbacks: nil, an error, nil. -/
def handlerNilErrNil : queue.QueueHandler :=
  (((queue.NewQueueHandler "sqs://someuri" 1000).AddHandler callbackNil).AddHandler
    (callbackErr "boom")).AddHandler callbackNil

/-- A handler with two callbacks that both return nil. -/
def handlerNilNil : queue.QueueHandler :=
  ((queue.NewQueueHandler "sqs://someuri" 1000).AddHandler callbackNil).AddHandler callbackNil

/-- A handler with one callback, which calls `SetMessageDelete(ctx, b)` and returns `err`. -/
def handlerSetDelete (b : Bool) (err : GoError) : queue.QueueHandler :=
  (queue.NewQueueHandler "sqs://someuri" 1000).AddHandler (callbackSetDelete b err)

/-- What `url.Parse` answers for the URIs used in the evaluations. -/
def parseURI (uri : String) : Except String url.URL :=
  if uri = "sqs://someuri" then
    .ok { Scheme := "sqs", Host := "someuri", Hostname := "someuri", Path := "", Fragment := "" }
  else if uri = "foo://" then
    .ok { Scheme := "foo", Host := "", Hostname := "", Path := "", Fragment := "" }
  else if uri = "mem://host1/" then
    .ok { Scheme := "mem", Host := "host1", Hostname := "host1", Path := "/", Fragment := "" }
  else if uri = "nsqd://host:4150/testtopic/testchannel#ephemeral" then
    .ok { Scheme := "nsqd", Host := "host:4150", Hostname := "host"
          Path := "/testtopic/testchannel", Fragment := "ephemeral" }
  else if uri = "nsqd://host:4150/a/a#ephemeral" then
    .ok { Scheme := "nsqd", Host := "host:4150", Hostname := "host", Path := "/a/a"
          Fragment := "ephemeral" }
  else if uri = "nsqlookupd://host:4161/orders" then
    .ok { Scheme := "nsqlookupd", Host := "host:4161", Hostname := "host", Path := "/orders"
          Fragment := "" }
  else if uri = "nsqd://host:4150/orders" then
    .ok { Scheme := "nsqd", Host := "host:4150", Hostname := "host", Path := "/orders"
          Fragment := "" }
  else .error "parse error"

/-- What `strconv.Atoi` answers for the texts used in the evaluations. -/
def atoi (text : String) : Except String Int :=
  if text = "30" then .ok 30
  else if text = "9223372037" then .ok 9223372037
  else .error "strconv.Atoi: invalid syntax"

/-- A broker double like `TestSQS` whose `VisibilityTimeout` attribute is `text`. -/
def TestSQSVisibility (text : String) : sqs.SQSAPI :=
  { GetQueueUrl := fun _ => ({ QueueUrl := options.awsString "someurl" }, none)
    SendMessage := fun _ => none
    DeleteMessage := fun _ => none
    GetQueueAttributes := fun _ =>
      ({ Attributes := [("VisibilityTimeout", options.awsString text)] }, none)
    ReceiveMessage := fun _ => ({ Messages := [] }, none) }

/-- A mux that answers every URI with a new handler. -/
def newHandlerMux : queue.QueueMux :=
  fun uri => .done (some (queue.NewQueueHandler uri 1000), none)

/-- What `path.Dir` answers for the paths used in the evaluations. -/
def pathDir (p : String) : String :=
  if p = "/testtopic/testchannel" then "/testtopic"
  else if p = "/a/a" then "/a"
  else if p = "/orders" then "/"
  else "."

/-- What `path.Base` answers for the paths used in the evaluations. -/
def pathBase (p : String) : String :=
  if p = "/testtopic/testchannel" then "testchannel"
  else if p = "/a/a" then "a"
  else if p = "/orders" then "orders"
  else "."

/-- The ten bytes of the JSON document with the single member `test` of value 1, the
payload published in the integration test of the pub-sub adapter. -/
def jsonPayload : Bytes := [123, 34, 116, 101, 115, 116, 34, 58, 49, 125]

/-- The bytes `json.Marshal` produces for the wire envelope with `CorrelationID` `id-1` and
`RawMessage` `jsonPayload`: an object with the member `CorrelationID`, a string, followed
by the member `RawMessage`, the raw document. -/
def jsonBody : Bytes :=
  [123, 34, 67, 111, 114, 114, 101, 108, 97, 116, 105, 111, 110, 73, 68, 34, 58, 34, 105,
    100, 45, 49, 34, 44, 34, 82, 97, 119, 77, 101, 115, 115, 97, 103, 101, 34, 58, 123, 34,
    116, 101, 115, 116, 34, 58, 49, 125, 125]

/-- What `json.Marshal` answers for the wire envelopes used in the evaluations; a
`RawMessage` that is not a JSON document, such as `payload`, is refused. -/
def jsonMarshal (m : nsq.NSQMessage) : Except String Bytes :=
  if m = { CorrelationID := "id-1", RawMessage := jsonPayload } then .ok jsonBody
  else .error "json: error calling MarshalJSON for type json.RawMessage"

/-- What `json.Unmarshal` answers for the bodies used in the evaluations; a body that is
not a JSON document, such as `payload`, is refused. -/
def jsonUnmarshal (body : Bytes) : Except String nsq.NSQMessage :=
  if body = jsonBody then .ok { CorrelationID := "id-1", RawMessage := jsonPayload }
  else .error "invalid character"

/-- Library double for the pub-sub adapter: constructors and publish succeed, and the
codec answers as `jsonMarshal` and `jsonUnmarshal`. -/
def nsqLib : nsq.Lib :=
  { parse := parseURI
    pathDir := pathDir
    pathBase := pathBase
    NewConsumer := fun _ _ => none
    NewProducer := fun _ => none
    Publish := fun _ _ => none
    Marshal := jsonMarshal
    Unmarshal := jsonUnmarshal }

/-- The envelope `Publish` builds for `jsonPayload` with no options when the generated ID
is `id-1`, with its error channel at address 0. -/
def publishedJsonEnvelope : queue.QueueMessage :=
  { Data := jsonPayload
    Err := 0
    Context := options.ContextWithPublishOptions (options.NewMessageContext "id-1")
      (options.Merge []) }

/-- A handler with one callback, the no-op one. -/
def handlerNil (uri : String) : queue.QueueHandler :=
  (queue.NewQueueHandler uri 1000).AddHandler callbackNil

/-- A message context that carries a delete cell at address 0. -/
def contextWithCell : options.Context :=
  .WithValue (options.NewMessageContext "id-1") .deleteKey (.deleteValuePtr 0)

end fixtures

/-! ## Package `options`: merge and delete override -/

namespace options

theorem Merge_append_singleton (opts : List PublishOptions) (o : PublishOptions) :
    Merge (opts ++ [o]) =
      if o.CorrelationID ≠ none then { Merge opts with CorrelationID := o.CorrelationID }
      else Merge opts := by
  simp [Merge, List.foldl_append]

theorem Merge_correlationID (opts : List PublishOptions) :
    (Merge opts).CorrelationID = (opts.filterMap fun o => o.CorrelationID).getLast? := by
  induction opts using List.reverseRecOn with
  | nil => rfl
  | append_singleton init o ih =>
    rw [Merge_append_singleton, List.filterMap_append]
    cases h : o.CorrelationID with
    | none => simp [h, ih]
    | some c => simp [h]

theorem PublishOptionsFromContext_withOptions (parent : Context) (opts : PublishOptions) :
    PublishOptionsFromContext (.WithValue parent .publishOptionsKey (.publishOptions opts)) =
      (opts, true) := by
  simp [PublishOptionsFromContext, Context.Value]

theorem NewMessageContext_eq (uuid : String) :
    NewMessageContext uuid =
      .WithValue .Background .publishOptionsKey (.publishOptions { CorrelationID := some uuid }) := by
  rfl

/-- Attaching options to a fresh message context: the attached ID wins when it is set,
the generated one stays otherwise. -/
theorem fresh_context_options (uuid : String) (o : PublishOptions) :
    PublishOptionsFromContext (ContextWithPublishOptions (NewMessageContext uuid) o) =
      ({ CorrelationID := some (o.CorrelationID.getD uuid) }, true) := by
  rw [NewMessageContext_eq]
  cases h : o.CorrelationID with
  | none =>
    simp [ContextWithPublishOptions, PublishOptionsFromContext, Context.Value, Merge, h]
  | some c =>
    simp [ContextWithPublishOptions, PublishOptionsFromContext, Context.Value, Merge, h]

/-- A frame stored under the publish-options key does not change the lookup of the delete key. -/
theorem Value_deleteKey_withOptions (parent : Context) (v : CtxVal) :
    (Context.WithValue parent .publishOptionsKey v).Value .deleteKey = parent.Value .deleteKey := by
  simp [Context.Value]

theorem ContextWithPublishOptions_deleteKey (parent : Context) (opts : PublishOptions) :
    (ContextWithPublishOptions parent opts).Value .deleteKey = parent.Value .deleteKey := by
  simp [ContextWithPublishOptions, Context.Value]

theorem NewMessageContext_deleteKey (uuid : String) :
    (NewMessageContext uuid).Value .deleteKey = none := by
  simp [NewMessageContext, ContextWithPublishOptions_deleteKey, Context.Value]

/-- Without a cell under the delete key, `SetMessageDelete` changes nothing and
`GetMessageDeleteValue` reports the flag as not set. -/
theorem delete_override_absent (ctx : Context) (b : Bool) (heap : DelHeap)
    (h : ctx.Value .deleteKey = none) :
    SetMessageDelete ctx b heap = heap ∧ GetMessageDeleteValue ctx heap = (false, false) := by
  simp [SetMessageDelete, GetMessageDeleteValue, h]

/-- With an allocated cell attached under the delete key, the flag written by
`SetMessageDelete` is the one `GetMessageDeleteValue` reads back. -/
theorem delete_override_present (ctx : Context) (b : Bool) (heap : DelHeap) (addr : Nat)
    (h : ctx.Value .deleteKey = some (.deleteValuePtr addr)) (ha : addr < heap.length) :
    GetMessageDeleteValue ctx (SetMessageDelete ctx b heap) = (b, true) := by
  simp [SetMessageDelete, GetMessageDeleteValue, h, List.getD_eq_getElem?_getD, ha]

end options

/-- C8 (as stated, refuted): an option built from the empty string replaces an earlier
non-empty correlation ID, so `Merge` does not yield the last non-empty one. -/
theorem merge_empty_string_replaces :
    (options.Merge [options.WithCorrelationID "one", options.WithCorrelationID ""]).CorrelationID
        = some "" ∧
    (options.Merge [options.WithCorrelationID "one", options.WithCorrelationID ""]).CorrelationID
        ≠ some "one" := by
  decide

/-- C8 (amended): for every list of options built with `WithCorrelationID`, `Merge` yields
the correlation ID of the last option of the list, empty string or not, and an unset ID
for the empty list. -/
theorem merge_withCorrelationID_last (ids : List String) :
    (options.Merge (ids.map options.WithCorrelationID)).CorrelationID = ids.getLast? := by
  rw [options.Merge_correlationID, List.filterMap_map]
  have h : (fun o : options.PublishOptions => o.CorrelationID) ∘ options.WithCorrelationID
      = some := by
    funext s
    rfl
  rw [h, List.filterMap_some]

/-- C9: `Merge` returns the correlation ID of the last option whose ID is set (the last
element of the list of set IDs), unset when none is set; and attaching
`Merge(WithCorrelationID(a), WithCorrelationID(b))` to a new message context gives a
context whose correlation ID is `b`. -/
theorem merge_last_set_wins :
    (∀ opts : List options.PublishOptions,
      (options.Merge opts).CorrelationID = (opts.filterMap fun o => o.CorrelationID).getLast?) ∧
    (∀ uuid a b : String,
      options.CorrelationIDFromContext
        (options.ContextWithPublishOptions (options.NewMessageContext uuid)
          (options.Merge [options.WithCorrelationID a, options.WithCorrelationID b])) = b) := by
  refine ⟨options.Merge_correlationID, ?_⟩
  intro uuid a b
  simp [options.CorrelationIDFromContext, options.fresh_context_options,
    options.Merge_correlationID, options.WithCorrelationID, options.awsStringValue]

/-- C6 (the code at the failing input, and in general): on a context made by
`NewMessageContext` or by `ContextWithPublishOptions` over the background context,
`SetMessageDelete(ctx, b)` leaves every delete cell as it was and
`GetMessageDeleteValue(ctx)` afterwards returns `(false, false)`, not `(b, true)`. -/
theorem setMessageDelete_no_effect (uuid : String) (opts : options.PublishOptions) (b : Bool)
    (heap : options.DelHeap) :
    options.SetMessageDelete (options.NewMessageContext uuid) b heap = heap ∧
    options.GetMessageDeleteValue (options.NewMessageContext uuid)
      (options.SetMessageDelete (options.NewMessageContext uuid) b heap) = (false, false) ∧
    options.GetMessageDeleteValue (options.ContextWithPublishOptions .Background opts)
      (options.SetMessageDelete (options.ContextWithPublishOptions .Background opts) b heap)
        = (false, false) ∧
    options.GetMessageDeleteValue
      (options.ContextWithPublishOptions (options.NewMessageContext uuid) opts)
      (options.SetMessageDelete
        (options.ContextWithPublishOptions (options.NewMessageContext uuid) opts) b heap)
        = (false, false) := by
  have h1 := options.NewMessageContext_deleteKey uuid
  have h2 : (options.ContextWithPublishOptions .Background opts).Value .deleteKey = none := by
    simp [options.ContextWithPublishOptions_deleteKey, options.Context.Value]
  have h3 : (options.ContextWithPublishOptions (options.NewMessageContext uuid) opts).Value
      .deleteKey = none := by
    rw [options.ContextWithPublishOptions_deleteKey, h1]
  refine ⟨(options.delete_override_absent _ b heap h1).1, ?_, ?_, ?_⟩
  · rw [(options.delete_override_absent _ b heap h1).1]
    exact (options.delete_override_absent _ b heap h1).2
  · rw [(options.delete_override_absent _ b heap h2).1]
    exact (options.delete_override_absent _ b heap h2).2
  · rw [(options.delete_override_absent _ b heap h3).1]
    exact (options.delete_override_absent _ b heap h3).2

/-! ## Error-channel heap -/

namespace ErrHeap

theorem lt_of_getElem? {h : ErrHeap} {ch : Nat} {c : Chan GoError} (hc : h[ch]? = some c) :
    ch < h.length :=
  (List.getElem?_eq_some_iff.mp hc).1

theorem getElem?_set_self {h : ErrHeap} {ch : Nat} {c : Chan GoError} (c1 : Chan GoError)
    (hc : h[ch]? = some c) : (h.set ch c1)[ch]? = some c1 := by
  have hlt := lt_of_getElem? hc
  simp [List.getElem?_set_self, hlt]

theorem send_of_getElem? {h : ErrHeap} {ch : Nat} {c : Chan GoError} (v : GoError)
    (hc : h[ch]? = some c) (hopen : c.closed = false) (hroom : c.buf.length < c.cap) :
    send h ch v = .done (h.set ch { cap := c.cap, buf := c.buf ++ [v], closed := false }) := by
  simp [send, hc, Chan.send, hopen, hroom, Step.bind]

theorem close_of_getElem? {h : ErrHeap} {ch : Nat} {c : Chan GoError}
    (hc : h[ch]? = some c) (hopen : c.closed = false) :
    close h ch = .done (h.set ch { cap := c.cap, buf := c.buf, closed := true }) := by
  simp [close, hc, Chan.close, hopen, Step.bind]

theorem recv_of_getElem?_cons {h : ErrHeap} {ch : Nat} {c : Chan GoError} {v : GoError}
    {rest : List GoError} (hc : h[ch]? = some c) (hb : c.buf = v :: rest) :
    recv h ch = .done (v, h.set ch { cap := c.cap, buf := rest, closed := c.closed }) := by
  simp [recv, hc, Chan.recv, hb, Step.bind]

theorem recv_of_getElem?_closed {h : ErrHeap} {ch : Nat} {c : Chan GoError}
    (hc : h[ch]? = some c) (hb : c.buf = []) (hcl : c.closed = true) :
    recv h ch = .done (none, h.set ch c) := by
  simp [recv, hc, Chan.recv, hb, hcl, Step.bind]

theorem recv_of_getElem?_empty {h : ErrHeap} {ch : Nat} {c : Chan GoError}
    (hc : h[ch]? = some c) (hb : c.buf = []) (hcl : c.closed = false) :
    recv h ch = .blocks := by
  simp [recv, hc, Chan.recv, hb, hcl, Step.bind]

/-- Sending on a freshly made channel of capacity one stores the value. -/
theorem send_fresh (h : ErrHeap) (v : GoError) :
    send (h ++ [Chan.make 1]) h.length v =
      .done (h ++ [{ cap := 1, buf := [v], closed := false }]) := by
  simp [send, Chan.send, Chan.make, Step.bind, List.set_append_right]

end ErrHeap

/-! ## Package `queue`: Receive, Start, Publish -/

namespace queue

theorem PublishAwait_eq (errs : ErrHeap) (errCh : Nat) :
    QueueHandler.PublishAwait errs errCh = errs.recv errCh := by
  unfold QueueHandler.PublishAwait
  cases h : errs.recv errCh with
  | done r =>
    obtain ⟨v, e⟩ := r
    cases v <;> rfl
  | blocks => rfl
  | panics => rfl

/-- With room on the outbound buffer, the first half of `Publish` allocates the error
channel at the next free address and appends the envelope. -/
theorem PublishSend_room (q : QueueHandler) (errs : ErrHeap) (uuid : String) (data : Bytes)
    (opts : List options.PublishOptions) (hopen : q.Outgoing.closed = false)
    (hroom : q.Outgoing.buf.length < q.Outgoing.cap) :
    q.PublishSend errs uuid data opts =
      .done
        ({ q with
            Outgoing :=
              { cap := q.Outgoing.cap
                buf := q.Outgoing.buf ++
                  [{ Data := data
                     Err := errs.length
                     Context := options.ContextWithPublishOptions (options.NewMessageContext uuid)
                       (options.Merge opts) }]
                closed := q.Outgoing.closed } },
          errs ++ [Chan.make 1], errs.length) := by
  simp [QueueHandler.PublishSend, ErrHeap.make, Chan.send, hopen, hroom, Step.bind]

/-- With a registered callback and room on the inbound buffer, `Receive` allocates the
error channel at the next free address and appends the message. -/
theorem Receive_room (q : QueueHandler) (errs : ErrHeap) (ctx : options.Context) (data : Bytes)
    (hh : q.handlers ≠ []) (hopen : q.in_.closed = false) (hroom : q.in_.buf.length < q.in_.cap) :
    q.Receive errs ctx data =
      .done
        ({ q with
            in_ :=
              { cap := q.in_.cap
                buf := q.in_.buf ++ [{ Data := data, Err := errs.length, Context := ctx }]
                closed := q.in_.closed } },
          errs ++ [Chan.make 1], errs.length) := by
  have hl : q.handlers.length ≠ 0 := by
    intro h
    exact hh (List.length_eq_zero.mp h)
  simp [QueueHandler.Receive, hl, ErrHeap.make, Chan.send, hopen, hroom, Step.bind]

/-- A chain of one callback on a fresh error channel completes with exactly one operation
on the channel: the error is stored, or the channel is closed. -/
theorem runHandlers_single (handler : Callback) (msg : QueueMessage) (errs : ErrHeap)
    (dels : options.DelHeap) (h : errs[msg.Err]? = some (Chan.make 1)) :
    runHandlers [handler] msg 0 errs dels =
      { invoked := 1
        errs := errs.set msg.Err
          (match (handler msg.Context msg.Data dels).1 with
           | some e => { cap := 1, buf := [some e], closed := false }
           | none => { cap := 1, buf := [], closed := true })
        dels := (handler msg.Context msg.Data dels).2
        status := .completed } := by
  cases hr : (handler msg.Context msg.Data dels).1 with
  | none =>
    have h1 := ErrHeap.close_of_getElem? h rfl
    simp only [runHandlers, hr, h1]
    rfl
  | some e =>
    have h1 := ErrHeap.send_of_getElem? (some e) h rfl (by decide)
    simp only [runHandlers, hr, h1]
    rfl

end queue

/-! ## What the waiting receiver obtains -/

namespace ErrHeap

/-- A value that is ready to be received stays the next one received after a further
successful send on the same channel. -/
theorem recv_after_send {h h1 h2 : ErrHeap} {ch : Nat} {v w : GoError}
    (hr : recv h ch = .done (v, h2)) (hs : send h ch w = .done h1) :
    ∃ h3, recv h1 ch = .done (v, h3) := by
  unfold recv at hr
  unfold send at hs
  cases hc : h[ch]? with
  | none => simp [hc] at hr
  | some c =>
    simp only [hc] at hr hs
    unfold Chan.send at hs
    by_cases hcl : c.closed = true
    · simp [hcl, Step.bind] at hs
    · simp only [hcl] at hs
      by_cases hroom : c.buf.length < c.cap
      · simp only [hroom, if_true, Step.bind] at hs
        cases hb : c.buf with
        | nil => simp [Chan.recv, hb, hcl, Step.bind] at hr
        | cons x rest =>
          simp only [Chan.recv, hb, Step.bind, Step.done.injEq, Prod.mk.injEq] at hr
          have hh : h1 = h.set ch { cap := c.cap, buf := c.buf ++ [w], closed := false } := by
            simpa using hs.symm
          have hg := getElem?_set_self
            { cap := c.cap, buf := c.buf ++ [w], closed := false } hc
          rw [← hh] at hg
          have hb1 : (c.buf ++ [w]) = x :: (rest ++ [w]) := by simp [hb]
          have hfin := recv_of_getElem?_cons hg hb1
          rw [hr.1] at hfin
          exact ⟨_, hfin⟩
      · simp [hroom, Step.bind] at hs

/-- A value that is ready to be received stays the next one received after a further
successful close of the same channel. -/
theorem recv_after_close {h h1 h2 : ErrHeap} {ch : Nat} {v : GoError}
    (hr : recv h ch = .done (v, h2)) (hs : close h ch = .done h1) :
    ∃ h3, recv h1 ch = .done (v, h3) := by
  unfold recv at hr
  unfold close at hs
  cases hc : h[ch]? with
  | none => simp [hc] at hr
  | some c =>
    simp only [hc] at hr hs
    unfold Chan.close at hs
    by_cases hcl : c.closed = true
    · simp [hcl, Step.bind] at hs
    · simp only [hcl, Step.bind] at hs
      cases hb : c.buf with
      | nil => simp [Chan.recv, hb, hcl, Step.bind] at hr
      | cons x rest =>
        simp only [Chan.recv, hb, Step.bind, Step.done.injEq, Prod.mk.injEq] at hr
        have hh : h1 = h.set ch { cap := c.cap, buf := c.buf, closed := true } := by
          simpa using hs.symm
        have hg := getElem?_set_self { cap := c.cap, buf := c.buf, closed := true } hc
        rw [← hh] at hg
        have hfin := recv_of_getElem?_cons hg hb
        rw [hr.1] at hfin
        exact ⟨_, hfin⟩

end ErrHeap

namespace queue

/-- Once a value is ready on the message's error channel, the rest of the chain cannot
change what the waiting receiver obtains. -/
theorem runHandlers_keeps_ready (rest : List Callback) (msg : QueueMessage) (v : GoError) :
    ∀ (n : Nat) (errs : ErrHeap) (dels : options.DelHeap),
      (∃ h2, errs.recv msg.Err = .done (v, h2)) →
      ∃ h3, (runHandlers rest msg n errs dels).errs.recv msg.Err = .done (v, h3) := by
  induction rest with
  | nil =>
    intro n errs dels h
    simpa [runHandlers] using h
  | cons handler rest ih =>
    intro n errs dels h
    obtain ⟨h2, hr⟩ := h
    cases hres : (handler msg.Context msg.Data dels).1 with
    | none =>
      cases hop : errs.close msg.Err with
      | done errs1 =>
        simp only [runHandlers, hres, hop]
        exact ih _ _ _ (ErrHeap.recv_after_close hr hop)
      | blocks =>
        simp only [runHandlers, hres, hop]
        exact ⟨h2, hr⟩
      | panics =>
        simp only [runHandlers, hres, hop]
        exact ⟨h2, hr⟩
    | some e =>
      cases hop : errs.send msg.Err (some e) with
      | done errs1 =>
        simp only [runHandlers, hres, hop]
        exact ih _ _ _ (ErrHeap.recv_after_send hr hop)
      | blocks =>
        simp only [runHandlers, hres, hop]
        exact ⟨h2, hr⟩
      | panics =>
        simp only [runHandlers, hres, hop]
        exact ⟨h2, hr⟩

/-- What the receiver waiting on the channel returned by `Receive` obtains is the result of
the first callback of the chain, whatever the later callbacks return. -/
theorem runHandlers_first_result (handler : Callback) (rest : List Callback)
    (msg : QueueMessage) (errs : ErrHeap) (dels : options.DelHeap)
    (h : errs[msg.Err]? = some (Chan.make 1)) :
    ∃ h3, (runHandlers (handler :: rest) msg 0 errs dels).errs.recv msg.Err =
      .done ((handler msg.Context msg.Data dels).1, h3) := by
  cases hres : (handler msg.Context msg.Data dels).1 with
  | none =>
    have h1 := ErrHeap.close_of_getElem? h rfl
    have h2 := ErrHeap.getElem?_set_self { cap := 1, buf := [], closed := true } h
    simp only [runHandlers, hres, h1]
    exact runHandlers_keeps_ready rest msg none _ _ _
      ⟨_, ErrHeap.recv_of_getElem?_closed h2 rfl rfl⟩
  | some e =>
    have h1 := ErrHeap.send_of_getElem? (some e) h rfl (by decide)
    have h2 := ErrHeap.getElem?_set_self { cap := 1, buf := [some e], closed := false } h
    simp only [runHandlers, hres, h1]
    exact runHandlers_keeps_ready rest msg (some e) _ _ _
      ⟨_, ErrHeap.recv_of_getElem?_cons h2 rfl⟩

/-- Delivery of one message to a handler with a non-empty chain and an empty inbound
buffer: `Receive` enqueues the message with a fresh error channel, the `Start` loop
dequeues it and runs the chain on the message's context and payload, and the receiver
waiting on the channel `Receive` returned obtains the result of the first callback. -/
theorem deliver_chain (q : QueueHandler) (handler : Callback) (rest : List Callback)
    (errs : ErrHeap) (ctx : options.Context) (data : Bytes) (dels : options.DelHeap)
    (hcb : q.handlers = handler :: rest) (hin : q.in_.closed = false)
    (hinbuf : q.in_.buf = []) (hincap : 0 < q.in_.cap) :
    ∃ q1 q2 errs3,
      q.Receive errs ctx data = .done (q1, errs ++ [Chan.make 1], errs.length) ∧
      q1.in_.buf = [{ Data := data, Err := errs.length, Context := ctx }] ∧
      q1.processNext (errs ++ [Chan.make 1]) dels =
        some (q2, runHandlers (handler :: rest)
          { Data := data, Err := errs.length, Context := ctx } 0 (errs ++ [Chan.make 1]) dels) ∧
      (runHandlers (handler :: rest) { Data := data, Err := errs.length, Context := ctx } 0
          (errs ++ [Chan.make 1]) dels).errs.recv errs.length =
        .done ((handler ctx data dels).1, errs3) := by
  have hrecv := Receive_room q errs ctx data (by simp [hcb]) hin (by simp [hinbuf, hincap])
  have hslot : (errs ++ [Chan.make 1])[errs.length]? = some (Chan.make 1) := by simp
  obtain ⟨errs3, h3⟩ := runHandlers_first_result handler rest
    { Data := data, Err := errs.length, Context := ctx } (errs ++ [Chan.make 1]) dels hslot
  refine ⟨_,
    { q with in_ := { cap := q.in_.cap, buf := [], closed := q.in_.closed } },
    errs3, hrecv, ?_, ?_, h3⟩
  · simp [hinbuf]
  · simp [QueueHandler.processNext, hinbuf, hcb]

/-- After a first callback that returned nil the error channel is closed, so the operation
that follows the second callback panics, whatever that callback returned: the chain stops
after two invocations. -/
theorem runHandlers_panics_after_nil (handler next : Callback) (rest : List Callback)
    (msg : QueueMessage) (errs : ErrHeap) (dels : options.DelHeap)
    (h : errs[msg.Err]? = some (Chan.make 1))
    (hnil : (handler msg.Context msg.Data dels).1 = none) :
    (runHandlers (handler :: next :: rest) msg 0 errs dels).status = .panicked ∧
    (runHandlers (handler :: next :: rest) msg 0 errs dels).invoked = 2 := by
  have h1 := ErrHeap.close_of_getElem? h rfl
  have h2 := ErrHeap.getElem?_set_self { cap := 1, buf := [], closed := true } h
  simp only [Chan.make] at h1
  have hc : ErrHeap.close (errs.set msg.Err { cap := 1, buf := [], closed := true }) msg.Err =
      .panics := by
    simp [ErrHeap.close, h2, Chan.close, Step.bind]
  have hs : ∀ v, ErrHeap.send (errs.set msg.Err { cap := 1, buf := [], closed := true })
      msg.Err v = .panics := by
    intro v
    simp [ErrHeap.send, h2, Chan.send, Step.bind]
  cases hres : (next msg.Context msg.Data (handler msg.Context msg.Data dels).2).1 with
  | none =>
    simp [runHandlers, hnil, h1, hres, hc]
  | some e =>
    simp [runHandlers, hnil, h1, hres, hs]

end queue

/-! ## Claims on `Receive`, `Start` and `Publish` -/

/-- C1: with zero registered callbacks `Receive` completes (it neither blocks nor
panics, whatever the state of the inbound buffer), leaves the handler and so its inbound
buffer unchanged, and returns a new channel of capacity one that already holds
`errNoHandlers`, which a receive yields at once. -/
theorem receive_no_handlers (q : queue.QueueHandler) (errs : ErrHeap)
    (ctx : options.Context) (data : Bytes) (h : q.handlers = []) :
    q.Receive errs ctx data =
        .done (q, errs ++ [{ cap := 1, buf := [some queue.errNoHandlers], closed := false }],
          errs.length) ∧
    ErrHeap.recv (errs ++ [{ cap := 1, buf := [some queue.errNoHandlers], closed := false }])
        errs.length =
      .done (some queue.errNoHandlers, errs ++ [{ cap := 1, buf := [], closed := false }]) := by
  constructor
  · simp [queue.QueueHandler.Receive, h, ErrHeap.make, ErrHeap.send_fresh, Step.bind]
  · simp [ErrHeap.recv, Chan.recv, Step.bind, List.set_append_right]

/-- Witness of C1 on a new handler whose inbound buffer has capacity zero. -/
theorem receive_no_handlers_witness :
    (queue.NewQueueHandler "mem://host1/" 0).handlers = [] ∧
    ((queue.NewQueueHandler "mem://host1/" 0).Receive [] .Background fixtures.payload =
        .done (queue.NewQueueHandler "mem://host1/" 0,
          [] ++ [{ cap := 1, buf := [some queue.errNoHandlers], closed := false }],
          ([] : ErrHeap).length) ∧
      ErrHeap.recv ([] ++ [{ cap := 1, buf := [some queue.errNoHandlers], closed := false }])
          ([] : ErrHeap).length =
        .done (some queue.errNoHandlers, [] ++ [{ cap := 1, buf := [], closed := false }])) :=
  ⟨rfl, receive_no_handlers (queue.NewQueueHandler "mem://host1/" 0) [] .Background
    fixtures.payload rfl⟩

/-- C2 (the code at the failing input): with callbacks (nil, error) `Receive` enqueues the
message, the `Start` loop invokes both callbacks, closes the error channel after the first
and panics on the send after the second; the channel is closed and empty, so the waiting
receiver obtains nil. With callbacks (nil, error, nil) the loop panics after two
invocations: the third callback is never invoked. -/
theorem start_nil_then_error_panics :
    (∃ q1, fixtures.handlerNilErr.Receive [] .Background fixtures.payload =
        .done (q1, [Chan.make 1], 0) ∧
      (q1.processNext [Chan.make 1] []).map Prod.snd =
        some { invoked := 2, errs := [{ cap := 1, buf := [], closed := true }], dels := [],
               status := .panicked }) ∧
    ErrHeap.recv [{ cap := 1, buf := [], closed := true }] 0 =
      .done (none, [{ cap := 1, buf := [], closed := true }]) ∧
    (∃ q1, fixtures.handlerNilErrNil.Receive [] .Background fixtures.payload =
        .done (q1, [Chan.make 1], 0) ∧
      (q1.processNext [Chan.make 1] []).map Prod.snd =
        some { invoked := 2, errs := [{ cap := 1, buf := [], closed := true }], dels := [],
               status := .panicked }) := by
  refine ⟨⟨_, rfl, ?_⟩, ?_, ⟨_, rfl, ?_⟩⟩
  · rfl
  · rfl
  · rfl

/-- C3 (the code at the failing input): with two callbacks that both return nil the
`Start` loop closes the message's error channel after the first callback and closes it
again after the second, which panics. -/
theorem start_nil_nil_closes_twice :
    ∃ q1, fixtures.handlerNilNil.Receive [] .Background fixtures.payload =
        .done (q1, [Chan.make 1], 0) ∧
      (q1.processNext [Chan.make 1] []).map Prod.snd =
        some { invoked := 2, errs := [{ cap := 1, buf := [], closed := true }], dels := [],
               status := .panicked } ∧
      ErrHeap.close [{ cap := 1, buf := [], closed := true }] 0 = .panics := by
  refine ⟨_, rfl, ?_, ?_⟩
  · rfl
  · rfl

/-! ## Package `sqs`: outgoing and incoming loops -/

namespace sqs

/-- One outgoing iteration on an envelope whose error channel is still fresh. Before it,
the publisher's receive blocks. The iteration completes, and afterwards the publisher's
receive yields the result of `SendMessage` and leaves the channel closed and empty. -/
theorem outgoingIteration_fresh (svc : SQSAPI) (queueUrl : Option String)
    (m : queue.QueueMessage) (errs : ErrHeap) (h : errs[m.Err]? = some (Chan.make 1)) :
    queue.QueueHandler.PublishAwait errs m.Err = .blocks ∧
    ∃ errs2, outgoingIteration svc queueUrl m errs = .done errs2 ∧
      ∃ errs3, queue.QueueHandler.PublishAwait errs2 m.Err =
          .done (svc.SendMessage (sendMessageInput queueUrl m), errs3) ∧
        errs3[m.Err]? = some { cap := 1, buf := [], closed := true } := by
  constructor
  · rw [queue.PublishAwait_eq]
    exact ErrHeap.recv_of_getElem?_empty h rfl rfl
  · cases hs : svc.SendMessage (sendMessageInput queueUrl m) with
    | none =>
      have h1 := ErrHeap.close_of_getElem? h rfl
      have h2 := ErrHeap.getElem?_set_self { cap := 1, buf := [], closed := true } h
      refine ⟨errs.set m.Err { cap := 1, buf := [], closed := true }, ?_, ?_⟩
      · simp only [outgoingIteration, hs, queue.QueueMessage.Close]
        exact h1
      · refine ⟨_, ?_, ErrHeap.getElem?_set_self _ h2⟩
        rw [queue.PublishAwait_eq]
        exact ErrHeap.recv_of_getElem?_closed h2 rfl rfl
    | some e =>
      have h1 := ErrHeap.send_of_getElem? (some e) h rfl (by decide)
      have h2 := ErrHeap.getElem?_set_self { cap := 1, buf := [some e], closed := false } h
      have h3 := ErrHeap.close_of_getElem? h2 rfl
      have h4 := ErrHeap.getElem?_set_self { cap := 1, buf := [some e], closed := true } h2
      refine ⟨(errs.set m.Err { cap := 1, buf := [some e], closed := false }).set m.Err
        { cap := 1, buf := [some e], closed := true }, ?_, ?_⟩
      · simp only [outgoingIteration, hs, queue.QueueMessage.Close, h1, Step.bind]
        exact h3
      · refine ⟨_, ?_, ErrHeap.getElem?_set_self _ h4⟩
        rw [queue.PublishAwait_eq]
        exact ErrHeap.recv_of_getElem?_cons h4 rfl

/-- The context the incoming loop builds carries no delete cell. -/
theorem incomingContext_deleteKey (msg : Message) :
    (incomingContext msg).Value .deleteKey = none := by
  simp [incomingContext, options.ContextWithPublishOptions_deleteKey, options.Context.Value]

/-- When no override is attached, the delete decision is the default one. -/
theorem afterReceive_no_override (queueUrl : Option String) (msg : Message)
    (ctx : options.Context) (err : GoError) (dels : options.DelHeap)
    (h : (options.GetMessageDeleteValue ctx dels).2 = false) :
    afterReceive queueUrl msg ctx err dels =
      if err = none then [{ QueueUrl := queueUrl, ReceiptHandle := msg.ReceiptHandle }]
      else [] := by
  cases err with
  | none => simp [afterReceive, h]
  | some e => simp [afterReceive]

end sqs

/-- C4: when the outbound buffer has room, `Publish` enqueues one envelope with the payload
and a new error channel. While the channel is untouched `Publish` stays blocked. The
outgoing iteration that handles the envelope completes without panic, after which `Publish`
returns exactly what `SendMessage` returned (nil on success, the send error on failure),
and the channel is left closed and empty: one value was delivered and none can follow. -/
theorem publish_returns_send_result (q : queue.QueueHandler) (errs : ErrHeap) (uuid : String)
    (data : Bytes) (opts : List options.PublishOptions) (svc : sqs.SQSAPI)
    (queueUrl : Option String) (hopen : q.Outgoing.closed = false)
    (hroom : q.Outgoing.buf.length < q.Outgoing.cap) :
    ∃ q1 m, q.PublishSend errs uuid data opts = .done (q1, errs ++ [Chan.make 1], errs.length) ∧
      q1.Outgoing.buf = q.Outgoing.buf ++ [m] ∧ m.Data = data ∧ m.Err = errs.length ∧
      (errs ++ [Chan.make 1])[m.Err]? = some (Chan.make 1) ∧
      ∀ errs1 : ErrHeap, errs1[m.Err]? = some (Chan.make 1) →
        queue.QueueHandler.PublishAwait errs1 m.Err = .blocks ∧
        ∃ errs2, sqs.outgoingIteration svc queueUrl m errs1 = .done errs2 ∧
          ∃ errs3, queue.QueueHandler.PublishAwait errs2 m.Err =
              .done (svc.SendMessage (sqs.sendMessageInput queueUrl m), errs3) ∧
            errs3[m.Err]? = some { cap := 1, buf := [], closed := true } := by
  refine ⟨_, _, queue.PublishSend_room q errs uuid data opts hopen hroom, rfl, rfl, rfl, ?_, ?_⟩
  · simp
  · intro errs1 h1
    exact sqs.outgoingIteration_fresh svc queueUrl _ errs1 h1

/-- Witness of C4: a new handler, a broker whose `SendMessage` fails with `"throttled"`. -/
theorem publish_returns_send_result_witness :
    ∃ q1 m, (queue.NewQueueHandler "sqs://someuri" 1000).PublishSend [] "id-1" fixtures.payload
          [] = .done (q1, [] ++ [Chan.make 1], ([] : ErrHeap).length) ∧
      q1.Outgoing.buf = (queue.NewQueueHandler "sqs://someuri" 1000).Outgoing.buf ++ [m] ∧
      m.Data = fixtures.payload ∧ m.Err = ([] : ErrHeap).length ∧
      (([] : ErrHeap) ++ [Chan.make 1])[m.Err]? = some (Chan.make 1) ∧
      ∀ errs1 : ErrHeap, errs1[m.Err]? = some (Chan.make 1) →
        queue.QueueHandler.PublishAwait errs1 m.Err = .blocks ∧
        ∃ errs2, sqs.outgoingIteration (fixtures.TestSQS "someurl" (some "throttled"))
            (some "someurl") m errs1 = .done errs2 ∧
          ∃ errs3, queue.QueueHandler.PublishAwait errs2 m.Err =
              .done ((fixtures.TestSQS "someurl" (some "throttled")).SendMessage
                (sqs.sendMessageInput (some "someurl") m), errs3) ∧
            errs3[m.Err]? = some { cap := 1, buf := [], closed := true } :=
  publish_returns_send_result (queue.NewQueueHandler "sqs://someuri" 1000) [] "id-1"
    fixtures.payload [] (fixtures.TestSQS "someurl" (some "throttled")) (some "someurl") rfl
    (by decide)

/-- C5 (the code at the failing input, and in general): in the incoming loop, after a
callback has called `SetMessageDelete(ctx, b)` on the message's context, the message is
deleted exactly when the chain's error is nil, whatever `b` is: `b = false` with a nil
error still issues the delete, `b = true` with an error issues none. -/
theorem sqs_delete_ignores_override (queueUrl : Option String) (msg : sqs.Message) (b : Bool)
    (err : GoError) (dels : options.DelHeap) :
    sqs.afterReceive queueUrl msg (sqs.incomingContext msg) err
        (options.SetMessageDelete (sqs.incomingContext msg) b dels) =
      if err = none then [{ QueueUrl := queueUrl, ReceiptHandle := msg.ReceiptHandle }]
      else [] := by
  have h := options.delete_override_absent (sqs.incomingContext msg) b dels
    (sqs.incomingContext_deleteKey msg)
  rw [h.1]
  exact sqs.afterReceive_no_override queueUrl msg _ err dels (by rw [h.2])

/-- The whole path at the failing input of C5: one callback that calls
`SetMessageDelete(ctx, false)` and returns nil. `Receive` enqueues the message, the `Start`
loop runs the callback and closes the error channel, the incoming loop receives nil, finds
no override and issues the delete. -/
theorem sqs_override_false_trace :
    ∃ q1, (fixtures.handlerSetDelete false none).Receive []
          (sqs.incomingContext (fixtures.testMessage "somehandle"))
          (sqs.incomingData (fixtures.testMessage "somehandle")) =
        .done (q1, [Chan.make 1], 0) ∧
      (q1.processNext [Chan.make 1] []).map Prod.snd =
        some { invoked := 1, errs := [{ cap := 1, buf := [], closed := true }], dels := [],
               status := .completed } ∧
      ErrHeap.recv [{ cap := 1, buf := [], closed := true }] 0 =
        .done (none, [{ cap := 1, buf := [], closed := true }]) ∧
      sqs.afterReceive (some "someurl") (fixtures.testMessage "somehandle")
          (sqs.incomingContext (fixtures.testMessage "somehandle")) none [] =
        [{ QueueUrl := some "someurl", ReceiptHandle := some "somehandle" }] := by
  refine ⟨_, rfl, ?_, ?_, ?_⟩
  · rfl
  · rfl
  · rfl

namespace sqs

/-- A resolved queue URL is the one `GetQueueUrl` answered, without error, for the host
name of a URI with the `sqs` scheme. -/
theorem resolveQueueUrl_answer (parse : String → Except String url.URL) (svc : SQSAPI)
    (uri : String) (queueUrl : Option String)
    (hres : resolveQueueUrl parse svc uri = .ok queueUrl) :
    ∃ u, parse uri = .ok u ∧ u.Scheme = sqsScheme ∧
      svc.GetQueueUrl { QueueName := some u.Hostname } = ({ QueueUrl := queueUrl }, none) := by
  unfold resolveQueueUrl at hres
  cases hp : parse uri with
  | error e => simp [hp] at hres
  | ok u =>
    simp only [hp] at hres
    by_cases hs : u.Scheme = sqsScheme
    · refine ⟨u, rfl, hs, ?_⟩
      simp only [hs, ne_eq, not_true_eq_false, if_false, options.awsString] at hres
      cases hg : svc.GetQueueUrl { QueueName := some u.Hostname } with
      | mk res e =>
        rw [hg] at hres
        cases e with
        | none =>
          simp at hres
          cases res
          simp_all
        | some e => simp at hres
    · simp [hs] at hres

/-- What the incoming loop does once its receive on the channel returned by `Receive`
yields `r`: it issues the delete exactly when `r` is nil, whatever the delete cells hold. -/
theorem awaitAndDelete_eq (queueUrl : Option String) (msg : Message) (errs errs3 : ErrHeap)
    (ch : Nat) (r : GoError) (dels : options.DelHeap) (hr : errs.recv ch = .done (r, errs3)) :
    awaitAndDelete queueUrl msg errs ch dels =
      .done (if r = none then [{ QueueUrl := queueUrl, ReceiptHandle := msg.ReceiptHandle }]
        else [], errs3) := by
  have h := (options.delete_override_absent (incomingContext msg) true dels
    (incomingContext_deleteKey msg)).2
  simp only [awaitAndDelete, hr, Step.bind]
  rw [afterReceive_no_override queueUrl msg _ r dels (by rw [h])]

end sqs

/-- C7 (the code, in general and at the failing input): once the queue URL is resolved
for the URI, which is the one `GetQueueUrl` answered for the URI's host name, a received
message is handed to `Receive`, the `Start` loop runs the chain on it, and the incoming
loop, released by the first operation on the error channel, issues exactly one
`DeleteMessage` call with the resolved queue URL and the message's receipt handle when the
first callback returned nil, and none when the first callback returned an error, whatever
the delete cells hold. With a single callback this is the outcome of the chain. With more
callbacks the later results never reach the incoming loop: after a first callback that
returned nil the delete is issued although a later callback fails, and the `Start` loop
panics at the second callback. -/
theorem sqs_delete_follows_first_callback (parse : String → Except String url.URL)
    (svc : sqs.SQSAPI) (uri : String) (queueUrl : Option String) (q : queue.QueueHandler)
    (handler : queue.Callback) (rest : List queue.Callback) (errs : ErrHeap)
    (msg : sqs.Message) (dels : options.DelHeap)
    (hres : sqs.resolveQueueUrl parse svc uri = .ok queueUrl)
    (hcb : q.handlers = handler :: rest) (hin : q.in_.closed = false)
    (hinbuf : q.in_.buf = []) (hincap : 0 < q.in_.cap) :
    (∃ u, parse uri = .ok u ∧ u.Scheme = sqs.sqsScheme ∧
      svc.GetQueueUrl { QueueName := some u.Hostname } = ({ QueueUrl := queueUrl }, none)) ∧
    ∃ q1 q2 run errs3,
      sqs.receiveMessage q errs msg = .done (q1, errs ++ [Chan.make 1], errs.length) ∧
      q1.processNext (errs ++ [Chan.make 1]) dels = some (q2, run) ∧
      run = queue.runHandlers (handler :: rest)
        { Data := sqs.incomingData msg, Err := errs.length, Context := sqs.incomingContext msg }
        0 (errs ++ [Chan.make 1]) dels ∧
      (∀ dels2, sqs.awaitAndDelete queueUrl msg run.errs errs.length dels2 =
        .done
          (if (handler (sqs.incomingContext msg) (sqs.incomingData msg) dels).1 = none then
            [{ QueueUrl := queueUrl, ReceiptHandle := msg.ReceiptHandle }]
          else [], errs3)) ∧
      (rest = [] → run.status = .completed ∧ run.invoked = 1) ∧
      ((handler (sqs.incomingContext msg) (sqs.incomingData msg) dels).1 = none → rest ≠ [] →
        run.status = .panicked ∧ run.invoked = 2) := by
  refine ⟨sqs.resolveQueueUrl_answer parse svc uri queueUrl hres, ?_⟩
  obtain ⟨q1, q2, errs3, hrecv, _, hnext, hwait⟩ := queue.deliver_chain q handler rest errs
    (sqs.incomingContext msg) (sqs.incomingData msg) dels hcb hin hinbuf hincap
  have hslot : (errs ++ [Chan.make 1])[errs.length]? = some (Chan.make 1) := by simp
  refine ⟨q1, q2, _, errs3, hrecv, hnext, rfl, ?_, ?_, ?_⟩
  · intro dels2
    exact sqs.awaitAndDelete_eq queueUrl msg _ errs3 errs.length _ dels2 hwait
  · intro hrest
    subst hrest
    rw [queue.runHandlers_single handler _ _ dels hslot]
    exact ⟨rfl, rfl⟩
  · intro hnil hrest
    cases rest with
    | nil => exact absurd rfl hrest
    | cons next rest2 =>
      exact queue.runHandlers_panics_after_nil handler next rest2 _ _ dels hslot hnil

/-- Witness of C7, at the failing input: the broker double and message of `sqs_test.go` on
`sqs://someuri`, delivered to a handler whose first callback returns nil and whose second
callback fails with `boom`. The chain fails, the delete is issued, and the loop of `Start`
panics. -/
theorem sqs_delete_follows_first_callback_witness :
    (fixtures.callbackErr "boom"
      (sqs.incomingContext (fixtures.testMessage "somehandle"))
      (sqs.incomingData (fixtures.testMessage "somehandle")) []).1 = some "boom" ∧
    sqs.awaitAndDelete (some "someurl") (fixtures.testMessage "somehandle")
        [{ cap := 1, buf := [], closed := true }] 0 [] =
      .done ([{ QueueUrl := some "someurl", ReceiptHandle := some "somehandle" }],
        [{ cap := 1, buf := [], closed := true }]) ∧
    queue.runHandlers (fixtures.callbackNil :: [fixtures.callbackErr "boom"])
        { Data := sqs.incomingData (fixtures.testMessage "somehandle")
          Err := 0
          Context := sqs.incomingContext (fixtures.testMessage "somehandle") }
        0 [Chan.make 1] [] =
      { invoked := 2, errs := [{ cap := 1, buf := [], closed := true }], dels := []
        status := .panicked } ∧
    ((∃ u, fixtures.parseSomeuri "sqs://someuri" = .ok u ∧ u.Scheme = sqs.sqsScheme ∧
      (fixtures.TestSQS "someurl" none).GetQueueUrl { QueueName := some u.Hostname } =
        ({ QueueUrl := some "someurl" }, none)) ∧
    ∃ q1 q2 run errs3,
      sqs.receiveMessage fixtures.handlerNilErr [] (fixtures.testMessage "somehandle") =
        .done (q1, [] ++ [Chan.make 1], ([] : ErrHeap).length) ∧
      q1.processNext ([] ++ [Chan.make 1]) [] = some (q2, run) ∧
      run = queue.runHandlers (fixtures.callbackNil :: [fixtures.callbackErr "boom"])
        { Data := sqs.incomingData (fixtures.testMessage "somehandle")
          Err := ([] : ErrHeap).length
          Context := sqs.incomingContext (fixtures.testMessage "somehandle") }
        0 ([] ++ [Chan.make 1]) [] ∧
      (∀ dels2, sqs.awaitAndDelete (some "someurl") (fixtures.testMessage "somehandle") run.errs
          ([] : ErrHeap).length dels2 =
        .done
          (if (fixtures.callbackNil (sqs.incomingContext (fixtures.testMessage "somehandle"))
              (sqs.incomingData (fixtures.testMessage "somehandle")) []).1 = none then
            [{ QueueUrl := some "someurl"
               ReceiptHandle := (fixtures.testMessage "somehandle").ReceiptHandle }]
          else [], errs3)) ∧
      ([fixtures.callbackErr "boom"] = [] → run.status = .completed ∧ run.invoked = 1) ∧
      ((fixtures.callbackNil (sqs.incomingContext (fixtures.testMessage "somehandle"))
          (sqs.incomingData (fixtures.testMessage "somehandle")) []).1 = none →
        [fixtures.callbackErr "boom"] ≠ [] → run.status = .panicked ∧ run.invoked = 2)) :=
  ⟨rfl, rfl, rfl,
    sqs_delete_follows_first_callback fixtures.parseSomeuri (fixtures.TestSQS "someurl" none)
      "sqs://someuri" (some "someurl") fixtures.handlerNilErr fixtures.callbackNil
      [fixtures.callbackErr "boom"] [] (fixtures.testMessage "somehandle") [] (by rfl) (by rfl)
      (by rfl) (by rfl) (by decide)⟩

/-- C10: when the outbound buffer has room, the envelope `Publish` enqueues carries the
payload and a propagation context whose correlation ID is set: it is the ID of the last
option that sets one, and the newly generated ID when no option sets one. -/
theorem publish_envelope_correlation (q : queue.QueueHandler) (errs : ErrHeap) (uuid : String)
    (data : Bytes) (opts : List options.PublishOptions) (hopen : q.Outgoing.closed = false)
    (hroom : q.Outgoing.buf.length < q.Outgoing.cap) :
    ∃ q1 m ch, q.PublishSend errs uuid data opts = .done (q1, errs ++ [Chan.make 1], ch) ∧
      q1.Outgoing.buf = q.Outgoing.buf ++ [m] ∧ m.Data = data ∧
      options.PublishOptionsFromContext m.Context =
        ({ CorrelationID :=
            some ((opts.filterMap fun o => o.CorrelationID).getLast?.getD uuid) }, true) ∧
      options.CorrelationIDFromContext m.Context =
        (opts.filterMap fun o => o.CorrelationID).getLast?.getD uuid := by
  have hctx := options.fresh_context_options uuid (options.Merge opts)
  rw [options.Merge_correlationID] at hctx
  refine ⟨_, _, _, queue.PublishSend_room q errs uuid data opts hopen hroom, rfl, rfl, hctx, ?_⟩
  simp only [options.CorrelationIDFromContext, hctx, options.awsStringValue]

/-- Witness of C10: options that set `"one"`, nothing, then `"two"`. -/
theorem publish_envelope_correlation_witness :
    ∃ q1 m ch, (queue.NewQueueHandler "sqs://someuri" 1000).PublishSend [] "id-1"
          fixtures.payload
          [options.WithCorrelationID "one", { CorrelationID := none },
            options.WithCorrelationID "two"] = .done (q1, [] ++ [Chan.make 1], ch) ∧
      q1.Outgoing.buf = (queue.NewQueueHandler "sqs://someuri" 1000).Outgoing.buf ++ [m] ∧
      m.Data = fixtures.payload ∧
      options.PublishOptionsFromContext m.Context =
        ({ CorrelationID :=
            some (([options.WithCorrelationID "one", { CorrelationID := none },
              options.WithCorrelationID "two"].filterMap
                fun o => o.CorrelationID).getLast?.getD "id-1") }, true) ∧
      options.CorrelationIDFromContext m.Context =
        ([options.WithCorrelationID "one", { CorrelationID := none },
          options.WithCorrelationID "two"].filterMap fun o => o.CorrelationID).getLast?.getD
            "id-1" :=
  publish_envelope_correlation (queue.NewQueueHandler "sqs://someuri" 1000) [] "id-1"
    fixtures.payload
    [options.WithCorrelationID "one", { CorrelationID := none }, options.WithCorrelationID "two"]
    rfl (by decide)

/-! ## Correlation ID of a context -/

namespace options

/-- Attaching an option with a set correlation ID makes it the context's correlation ID,
whatever the parent carries. -/
theorem CorrelationIDFromContext_attach (parent : Context) (c : String) :
    PublishOptionsFromContext (ContextWithPublishOptions parent { CorrelationID := some c }) =
      ({ CorrelationID := some c }, true) := by
  unfold ContextWithPublishOptions
  cases h : (PublishOptionsFromContext parent).2 <;>
    simp [h, PublishOptionsFromContext_withOptions, Merge]

end options

/-- C11: for every parent context, with or without publish options attached, and every
string `id`, the correlation ID read from
`ContextWithPublishOptions(parent, WithCorrelationID(id))` is `id`. -/
theorem correlation_id_from_context (parent : options.Context) (id : String) :
    options.CorrelationIDFromContext
      (options.ContextWithPublishOptions parent (options.WithCorrelationID id)) = id := by
  simp [options.CorrelationIDFromContext, options.WithCorrelationID,
    options.CorrelationIDFromContext_attach, options.awsStringValue]

/-! ## Registry -/

/-- C12: for a URI that parses, when no mux is registered for its scheme `Queue` returns
an error and a nil handler and calls no mux; when a mux is registered it calls that mux
once with the URI and returns exactly its answer. -/
theorem registry_queue (parse : String → Except String url.URL) (registry : queue.Registry)
    (uri : String) (u : url.URL) (hp : parse uri = .ok u) :
    (registry.lookup u.Scheme = none →
      (queue.Queue parse registry uri).result =
          .done (none, some ("queue mux with scheme " ++ u.Scheme ++ " not found")) ∧
        (queue.Queue parse registry uri).invoked = []) ∧
    (∀ mux, registry.lookup u.Scheme = some mux →
      (queue.Queue parse registry uri).result = mux uri ∧
        (queue.Queue parse registry uri).invoked = [(u.Scheme, uri)]) := by
  constructor
  · intro hl
    simp [queue.Queue, hp, hl]
  · intro mux hl
    simp [queue.Queue, hp, hl]

/-- Witness of C12: with only `mem` registered, `foo://` finds no mux, and `mem://host1/`
gets the answer of the registered mux. -/
theorem registry_queue_witness :
    ((queue.Queue fixtures.parseURI (queue.Register [] "mem" fixtures.newHandlerMux)
          "foo://").result =
        .done (none, some ("queue mux with scheme " ++ "foo" ++ " not found")) ∧
      (queue.Queue fixtures.parseURI (queue.Register [] "mem" fixtures.newHandlerMux)
          "foo://").invoked = []) ∧
    ((queue.Queue fixtures.parseURI (queue.Register [] "mem" fixtures.newHandlerMux)
          "mem://host1/").result = fixtures.newHandlerMux "mem://host1/" ∧
      (queue.Queue fixtures.parseURI (queue.Register [] "mem" fixtures.newHandlerMux)
          "mem://host1/").invoked = [("mem", "mem://host1/")]) :=
  ⟨(registry_queue fixtures.parseURI (queue.Register [] "mem" fixtures.newHandlerMux) "foo://"
      { Scheme := "foo", Host := "", Hostname := "", Path := "", Fragment := "" } (by rfl)).1
      (by rfl),
    (registry_queue fixtures.parseURI (queue.Register [] "mem" fixtures.newHandlerMux)
      "mem://host1/"
      { Scheme := "mem", Host := "host1", Hostname := "host1", Path := "/", Fragment := "" }
      (by rfl)).2 fixtures.newHandlerMux (by rfl)⟩

/-! ## Package `sqs`: `Queue` and visibility discovery -/

namespace sqs

theorem pollForIncomingMessages_scheme (parse : String → Except String url.URL) (svc : SQSAPI)
    (uri : String) (u : url.URL) (hp : parse uri = .ok u) (hs : u.Scheme ≠ sqsScheme) :
    pollForIncomingMessages parse svc uri =
      { err := some errIncorrectScheme, calls := [], loop := none } := by
  simp [pollForIncomingMessages, hp, hs]

theorem pollForIncomingMessages_ok (parse : String → Except String url.URL) (svc : SQSAPI)
    (uri : String) (u : url.URL) (hp : parse uri = .ok u) (hs : u.Scheme = sqsScheme)
    (hq : (svc.GetQueueUrl (getQueueUrlInput u)).2 = none) :
    pollForIncomingMessages parse svc uri =
      { err := none
        calls := [.GetQueueUrl (getQueueUrlInput u)]
        loop := some (svc.GetQueueUrl (getQueueUrlInput u)).1.QueueUrl } := by
  unfold getQueueUrlInput at hq ⊢
  cases hg : svc.GetQueueUrl { QueueName := options.awsString u.Hostname } with
  | mk res e =>
    rw [hg] at hq
    simp only at hq
    subst hq
    simp [pollForIncomingMessages, hp, hs, hg]

/-- The goroutine of `pollForIncomingMessages` runs with the queue URL that
`resolveQueueUrl` gives, and is started exactly when that succeeds. -/
theorem pollForIncomingMessages_loop (parse : String → Except String url.URL) (svc : SQSAPI)
    (uri : String) :
    (pollForIncomingMessages parse svc uri).loop = (resolveQueueUrl parse svc uri).toOption ∧
    (pollForOutgoingMessages parse svc uri).loop = (resolveQueueUrl parse svc uri).toOption := by
  unfold pollForIncomingMessages pollForOutgoingMessages resolveQueueUrl
  cases parse uri with
  | error e => exact ⟨rfl, rfl⟩
  | ok u =>
    by_cases hs : u.Scheme = sqsScheme
    · cases hg : svc.GetQueueUrl { QueueName := options.awsString u.Hostname } with
      | mk res e => cases e <;> simp [hs, hg, Except.toOption]
    · simp [hs, Except.toOption]

theorem pollForOutgoingMessages_ok (parse : String → Except String url.URL) (svc : SQSAPI)
    (uri : String) (u : url.URL) (hp : parse uri = .ok u) (hs : u.Scheme = sqsScheme)
    (hq : (svc.GetQueueUrl (getQueueUrlInput u)).2 = none) :
    pollForOutgoingMessages parse svc uri =
      { err := none
        calls := [.GetQueueUrl (getQueueUrlInput u)]
        loop := some (svc.GetQueueUrl (getQueueUrlInput u)).1.QueueUrl } := by
  unfold getQueueUrlInput at hq ⊢
  cases hg : svc.GetQueueUrl { QueueName := options.awsString u.Hostname } with
  | mk res e =>
    rw [hg] at hq
    simp only at hq
    subst hq
    simp [pollForOutgoingMessages, hp, hs, hg]

end sqs

namespace sqs

/-- What `getVisibility` returns when the attribute map holds a text under
`VisibilityTimeout`: the conversion decides. -/
theorem getVisibility_present (parse : String → Except String url.URL)
    (atoi : String → Except String Int) (svc : SQSAPI) (uri : String) (u : url.URL)
    (text : String) (hp : parse uri = .ok u) (hs : u.Scheme = sqsScheme)
    (ha : visibilityAttribute svc u = some (some text)) :
    getVisibility parse atoi svc uri =
      match atoi text with
      | .error e => .done { duration := 0, err := some e, calls := discoveryCalls svc u }
      | .ok visibility =>
        .done { duration := wrapInt64 (timeSecond * visibility), err := none
                calls := discoveryCalls svc u } := by
  unfold visibilityAttribute at ha
  simp only [getVisibility, hp, hs, ne_eq, not_true_eq_false, if_false, ha, discoveryCalls]

/-- A missing or nil `VisibilityTimeout` entry makes `getVisibility` panic. -/
theorem getVisibility_absent (parse : String → Except String url.URL)
    (atoi : String → Except String Int) (svc : SQSAPI) (uri : String) (u : url.URL)
    (hp : parse uri = .ok u) (hs : u.Scheme = sqsScheme)
    (ha : ∀ text, visibilityAttribute svc u ≠ some (some text)) :
    getVisibility parse atoi svc uri = .panics := by
  unfold visibilityAttribute at ha
  simp only [getVisibility, hp, hs, ne_eq, not_true_eq_false, if_false]

theorem wrapInt64_of_range (x : Int) (h1 : -2 ^ 63 ≤ x) (h2 : x < 2 ^ 63) : wrapInt64 x = x := by
  unfold wrapInt64
  omega

/-- `Queue` on a URI with the right scheme whose queue URL lookup succeeds and whose
`VisibilityTimeout` entry holds a text: the conversion of the text decides. -/
theorem Queue_present (parse : String → Except String url.URL)
    (atoi : String → Except String Int) (svc : SQSAPI) (uri : String) (u : url.URL)
    (text : String) (hp : parse uri = .ok u) (hs : u.Scheme = sqsScheme)
    (hq : (svc.GetQueueUrl (getQueueUrlInput u)).2 = none)
    (ha : visibilityAttribute svc u = some (some text)) :
    SQSQueueMux.Queue parse atoi svc uri =
      match atoi text with
      | .error e =>
        .done { handler := none, err := some e
                calls := [.GetQueueUrl (getQueueUrlInput u)] ++
                  [.GetQueueUrl (getQueueUrlInput u)] ++ discoveryCalls svc u }
      | .ok visibility =>
        .done { handler := some { queue.NewQueueHandler uri defaultBuffer with
                    Visibility := wrapInt64 (timeSecond * visibility) }
                err := none
                calls := [.GetQueueUrl (getQueueUrlInput u)] ++
                  [.GetQueueUrl (getQueueUrlInput u)] ++ discoveryCalls svc u } := by
  unfold SQSQueueMux.Queue
  rw [pollForIncomingMessages_ok parse svc uri u hp hs hq,
    pollForOutgoingMessages_ok parse svc uri u hp hs hq,
    getVisibility_present parse atoi svc uri u text hp hs ha]
  cases atoi text <;> rfl

end sqs

/-- C13: for a URI that parses with a scheme other than `sqs`, `SQSQueueMux.Queue` returns
the incorrect-scheme error and a nil handler and makes no broker call; for an `sqs` URI
whose broker calls succeed (the queue URL lookup returns no error and the attribute query
answers an integer `VisibilityTimeout`) it returns a handler and no error. -/
theorem sqs_queue_scheme (parse : String → Except String url.URL)
    (atoi : String → Except String Int) (svc : sqs.SQSAPI) (uri : String) (u : url.URL)
    (hp : parse uri = .ok u) :
    (u.Scheme ≠ sqs.sqsScheme →
      sqs.SQSQueueMux.Queue parse atoi svc uri =
        .done { handler := none, err := some sqs.errIncorrectScheme, calls := [] }) ∧
    (u.Scheme = sqs.sqsScheme →
      (svc.GetQueueUrl (sqs.getQueueUrlInput u)).2 = none →
      ∀ text v, sqs.visibilityAttribute svc u = some (some text) → atoi text = .ok v →
        ∃ h, sqs.SQSQueueMux.Queue parse atoi svc uri =
          .done { handler := some h, err := none
                  calls := [.GetQueueUrl (sqs.getQueueUrlInput u)] ++
                    [.GetQueueUrl (sqs.getQueueUrlInput u)] ++ sqs.discoveryCalls svc u }) := by
  constructor
  · intro hs
    simp [sqs.SQSQueueMux.Queue, sqs.pollForIncomingMessages_scheme parse svc uri u hp hs]
  · intro hs hq text v ha hv
    refine ⟨{ queue.NewQueueHandler uri sqs.defaultBuffer with
      Visibility := sqs.wrapInt64 (sqs.timeSecond * v) }, ?_⟩
    rw [sqs.Queue_present parse atoi svc uri u text hp hs hq ha, hv]

/-- Witness of C13: `foo://` against any broker, and `sqs://someuri` against the broker
double of `sqs_test.go`. -/
theorem sqs_queue_scheme_witness :
    sqs.SQSQueueMux.Queue fixtures.parseURI fixtures.atoi (fixtures.TestSQS "someurl" none)
        "foo://" =
      .done { handler := none, err := some sqs.errIncorrectScheme, calls := [] } ∧
    ∃ h, sqs.SQSQueueMux.Queue fixtures.parseURI fixtures.atoi (fixtures.TestSQS "someurl" none)
        "sqs://someuri" =
      .done { handler := some h, err := none
              calls := [.GetQueueUrl { QueueName := some "someuri" }] ++
                [.GetQueueUrl { QueueName := some "someuri" }] ++
                sqs.discoveryCalls (fixtures.TestSQS "someurl" none)
                  { Scheme := "sqs", Host := "someuri", Hostname := "someuri", Path := ""
                    Fragment := "" } } :=
  ⟨(sqs_queue_scheme fixtures.parseURI fixtures.atoi (fixtures.TestSQS "someurl" none) "foo://"
      { Scheme := "foo", Host := "", Hostname := "", Path := "", Fragment := "" } (by rfl)).1
      (by decide),
    (sqs_queue_scheme fixtures.parseURI fixtures.atoi (fixtures.TestSQS "someurl" none)
      "sqs://someuri"
      { Scheme := "sqs", Host := "someuri", Hostname := "someuri", Path := "", Fragment := "" }
      (by rfl)).2 (by rfl) (by rfl) "30" 30 (by rfl) (by rfl)⟩

/-- C14 (as stated, refuted): with a `VisibilityTimeout` attribute that is not an integer,
`SQSQueueMux.Queue` on an `sqs` URI returns the conversion error and a nil handler, not a
handler with a zero duration; and with the attribute `9223372037` the duration stored is
the wrapped product, not 9223372037 seconds. -/
theorem sqs_queue_discovery_failure_is_fatal :
    sqs.SQSQueueMux.Queue fixtures.parseURI fixtures.atoi (fixtures.TestSQSVisibility "abc")
        "sqs://someuri" =
      .done { handler := none, err := some "strconv.Atoi: invalid syntax"
              calls := [.GetQueueUrl { QueueName := some "someuri" },
                .GetQueueUrl { QueueName := some "someuri" },
                .GetQueueUrl { QueueName := some "someuri" },
                .GetQueueAttributes { QueueUrl := some "someurl"
                                      AttributeNames := [some "All"] }] } ∧
    ∃ h, sqs.SQSQueueMux.Queue fixtures.parseURI fixtures.atoi
        (fixtures.TestSQSVisibility "9223372037") "sqs://someuri" =
      .done { handler := some h, err := none
              calls := [.GetQueueUrl { QueueName := some "someuri" },
                .GetQueueUrl { QueueName := some "someuri" },
                .GetQueueUrl { QueueName := some "someuri" },
                .GetQueueAttributes { QueueUrl := some "someurl"
                                      AttributeNames := [some "All"] }] } ∧
      h.Visibility = -9223372036709551616 ∧ h.Visibility ≠ sqs.timeSecond * 9223372037 := by
  constructor
  · rfl
  · refine ⟨{ queue.NewQueueHandler "sqs://someuri" sqs.defaultBuffer with
      Visibility := sqs.wrapInt64 (sqs.timeSecond * 9223372037) }, rfl, ?_, ?_⟩
    · decide
    · decide

/-- C14 (amended): for an `sqs` URI whose queue URL lookup succeeds and whose
`VisibilityTimeout` attribute holds a text, discovery decides the result of `Queue`: when
the text is not an integer, `Queue` returns the conversion error and no handler; when it
is the integer `v` and `v` seconds fit a `Duration`, `Queue` returns a handler whose
`Visibility` is `v` seconds. -/
theorem sqs_queue_visibility (parse : String → Except String url.URL)
    (atoi : String → Except String Int) (svc : sqs.SQSAPI) (uri : String) (u : url.URL)
    (text : String) (hp : parse uri = .ok u) (hs : u.Scheme = sqs.sqsScheme)
    (hq : (svc.GetQueueUrl (sqs.getQueueUrlInput u)).2 = none)
    (ha : sqs.visibilityAttribute svc u = some (some text)) :
    (∀ e, atoi text = .error e →
      sqs.SQSQueueMux.Queue parse atoi svc uri =
        .done { handler := none, err := some e
                calls := [.GetQueueUrl (sqs.getQueueUrlInput u)] ++
                  [.GetQueueUrl (sqs.getQueueUrlInput u)] ++ sqs.discoveryCalls svc u }) ∧
    (∀ v, atoi text = .ok v → -2 ^ 63 ≤ sqs.timeSecond * v → sqs.timeSecond * v < 2 ^ 63 →
      ∃ h, sqs.SQSQueueMux.Queue parse atoi svc uri =
          .done { handler := some h, err := none
                  calls := [.GetQueueUrl (sqs.getQueueUrlInput u)] ++
                    [.GetQueueUrl (sqs.getQueueUrlInput u)] ++ sqs.discoveryCalls svc u } ∧
        h.Visibility = sqs.timeSecond * v) := by
  constructor
  · intro e he
    rw [sqs.Queue_present parse atoi svc uri u text hp hs hq ha, he]
  · intro v hv h1 h2
    refine ⟨{ queue.NewQueueHandler uri sqs.defaultBuffer with
      Visibility := sqs.wrapInt64 (sqs.timeSecond * v) }, ?_, ?_⟩
    · rw [sqs.Queue_present parse atoi svc uri u text hp hs hq ha, hv]
    · exact sqs.wrapInt64_of_range _ h1 h2

/-- Witness of C14 (amended): the broker double of `sqs_test.go` answers `30`, and the
handler's `Visibility` is thirty seconds. -/
theorem sqs_queue_visibility_witness :
    ∃ h, sqs.SQSQueueMux.Queue fixtures.parseURI fixtures.atoi (fixtures.TestSQS "someurl" none)
          "sqs://someuri" =
        .done { handler := some h, err := none
                calls := [.GetQueueUrl (sqs.getQueueUrlInput
                    { Scheme := "sqs", Host := "someuri", Hostname := "someuri", Path := ""
                      Fragment := "" })] ++
                  [.GetQueueUrl (sqs.getQueueUrlInput
                    { Scheme := "sqs", Host := "someuri", Hostname := "someuri", Path := ""
                      Fragment := "" })] ++
                  sqs.discoveryCalls (fixtures.TestSQS "someurl" none)
                    { Scheme := "sqs", Host := "someuri", Hostname := "someuri", Path := ""
                      Fragment := "" } } ∧
      h.Visibility = sqs.timeSecond * 30 :=
  (sqs_queue_visibility fixtures.parseURI fixtures.atoi (fixtures.TestSQS "someurl" none)
    "sqs://someuri"
    { Scheme := "sqs", Host := "someuri", Hostname := "someuri", Path := "", Fragment := "" }
    "30" (by rfl) (by rfl) (by rfl) (by rfl)).2 30 (by rfl) (by decide) (by decide)

/-! ## Package `nsq`: setup of the two loops -/

namespace nsq

theorem schemes_differ : nsqlookupdScheme ≠ nsqdScheme := by decide

/-- With an empty directory component the topic is the channel. -/
theorem incomingTopic_single_segment (lib : Lib) (u : url.URL)
    (h : strings.TrimPrefix (lib.pathDir u.Path) "/" = "") :
    incomingTopic lib u = incomingChannel lib u := by
  simp [incomingTopic, h]

/-- Without the `ephemeral` fragment, equal directory and base components give equal
topic and channel. -/
theorem incomingTopic_same_components (lib : Lib) (u : url.URL) (hf : u.Fragment ≠ "ephemeral")
    (h : strings.TrimPrefix (lib.pathDir u.Path) "/" =
      strings.TrimPrefix (lib.pathBase u.Path) "/") :
    incomingTopic lib u = incomingChannel lib u := by
  simp only [incomingTopic, incomingChannel, hf, if_false, h]
  split <;> rfl

theorem pollForIncomingMessages_valid (s : NSQQueueMux) (lib : Lib) (uri : String) (u : url.URL)
    (hp : lib.parse uri = .ok u) (hs : u.Scheme = nsqdScheme ∨ u.Scheme = nsqlookupdScheme) :
    s.pollForIncomingMessages lib uri =
      if incomingTopic lib u = incomingChannel lib u then
        { err := none, consumers := [], loop := none }
      else
        match lib.NewConsumer (incomingTopic lib u) (incomingChannel lib u) with
        | some e =>
          { err := some e, consumers := [(incomingTopic lib u, incomingChannel lib u)]
            loop := none }
        | none =>
          { err := none, consumers := [(incomingTopic lib u, incomingChannel lib u)]
            loop := some (incomingTopic lib u, incomingChannel lib u) } := by
  have hn : ¬(u.Scheme ≠ nsqdScheme ∧ u.Scheme ≠ nsqlookupdScheme) := by
    rcases hs with h | h <;> simp [h]
  simp only [NSQQueueMux.pollForIncomingMessages, hp, hn, if_false]

end nsq

/-- C15 (as stated, refuted): for the path `/a/a` the directory and base components
coincide, yet with the fragment `ephemeral` the handler is not publish-only: a consumer is
created for topic `a` and channel `a#ephemeral` and the incoming loop is started. -/
theorem nsq_same_components_ephemeral_consumes :
    strings.TrimPrefix (fixtures.nsqLib.pathDir "/a/a") "/" =
      strings.TrimPrefix (fixtures.nsqLib.pathBase "/a/a") "/" ∧
    (nsq.newNSQQueueMux false).pollForIncomingMessages fixtures.nsqLib
        "nsqd://host:4150/a/a#ephemeral" =
      { err := none, consumers := [("a", "a#ephemeral")], loop := some ("a", "a#ephemeral") } := by
  constructor
  · decide
  · decide

/-- C15 (amended): for a URI that parses with scheme `nsqd` or `nsqlookupd`, the handler
runs publish-only (no error, no `NewConsumer` call, no incoming loop) exactly when the
topic equals the channel name, where the channel name carries the suffix `#ephemeral` when
the fragment is `ephemeral`. That is the case for every path whose directory component is
empty (a single segment), with or without the fragment, and for every path whose
directory and base components coincide when the fragment is not `ephemeral`. When topic
and channel name differ, `NewConsumer` is called once with exactly that topic and channel;
if it succeeds the incoming loop is started with them, if it fails its error is returned. -/
theorem nsq_publish_only (s : nsq.NSQQueueMux) (lib : nsq.Lib) (uri : String) (u : url.URL)
    (hp : lib.parse uri = .ok u)
    (hs : u.Scheme = nsq.nsqdScheme ∨ u.Scheme = nsq.nsqlookupdScheme) :
    (nsq.incomingTopic lib u = nsq.incomingChannel lib u →
      s.pollForIncomingMessages lib uri = { err := none, consumers := [], loop := none }) ∧
    (nsq.incomingTopic lib u ≠ nsq.incomingChannel lib u →
      (s.pollForIncomingMessages lib uri).consumers =
          [(nsq.incomingTopic lib u, nsq.incomingChannel lib u)] ∧
        (lib.NewConsumer (nsq.incomingTopic lib u) (nsq.incomingChannel lib u) = none →
          (s.pollForIncomingMessages lib uri).err = none ∧
          (s.pollForIncomingMessages lib uri).loop =
            some (nsq.incomingTopic lib u, nsq.incomingChannel lib u)) ∧
        (∀ e, lib.NewConsumer (nsq.incomingTopic lib u) (nsq.incomingChannel lib u) = some e →
          (s.pollForIncomingMessages lib uri).err = some e ∧
          (s.pollForIncomingMessages lib uri).loop = none)) ∧
    (strings.TrimPrefix (lib.pathDir u.Path) "/" = "" →
      nsq.incomingTopic lib u = nsq.incomingChannel lib u) ∧
    (u.Fragment ≠ "ephemeral" →
      strings.TrimPrefix (lib.pathDir u.Path) "/" = strings.TrimPrefix (lib.pathBase u.Path) "/" →
      nsq.incomingTopic lib u = nsq.incomingChannel lib u) := by
  have hv := nsq.pollForIncomingMessages_valid s lib uri u hp hs
  refine ⟨?_, ?_, nsq.incomingTopic_single_segment lib u,
    nsq.incomingTopic_same_components lib u⟩
  · intro h
    rw [hv, if_pos h]
  · intro h
    rw [hv, if_neg h]
    refine ⟨?_, ?_, ?_⟩
    · cases lib.NewConsumer (nsq.incomingTopic lib u) (nsq.incomingChannel lib u) <;> rfl
    · intro hc
      rw [hc]
      exact ⟨rfl, rfl⟩
    · intro e hc
      rw [hc]
      exact ⟨rfl, rfl⟩

/-- Witness of C15 (amended): the single-segment URI `nsqlookupd://host:4161/orders` is
publish-only, and `nsqd://host:4150/testtopic/testchannel#ephemeral` gets a consumer for
`testtopic` and `testchannel#ephemeral`. -/
theorem nsq_publish_only_witness :
    (nsq.newNSQQueueMux true).pollForIncomingMessages fixtures.nsqLib
        "nsqlookupd://host:4161/orders" = { err := none, consumers := [], loop := none } ∧
    (nsq.newNSQQueueMux false).pollForIncomingMessages fixtures.nsqLib
        "nsqd://host:4150/testtopic/testchannel#ephemeral" =
      { err := none, consumers := [("testtopic", "testchannel#ephemeral")]
        loop := some ("testtopic", "testchannel#ephemeral") } :=
  ⟨(nsq_publish_only (nsq.newNSQQueueMux true) fixtures.nsqLib "nsqlookupd://host:4161/orders"
      { Scheme := "nsqlookupd", Host := "host:4161", Hostname := "host", Path := "/orders"
        Fragment := "" } (by rfl) (Or.inr (by rfl))).1 (by decide),
    by decide⟩

/-- C16: for a URI that parses, with the scheme `nsqlookupd` publishing setup returns no
error, creates no producer and starts no outgoing loop; with the scheme `nsqd` a producer
is created for the host and, when `NewProducer` returns no error, the outgoing loop is
started; with any other scheme `NSQQueueMux.Queue` returns the incorrect-scheme error and
no handler, and creates neither consumer nor producer. -/
theorem nsq_scheme_setup (s : nsq.NSQQueueMux) (lib : nsq.Lib) (uri : String) (u : url.URL)
    (hp : lib.parse uri = .ok u) :
    (u.Scheme = nsq.nsqlookupdScheme →
      s.pollForOutgoingMessages lib uri = { err := none, producers := [], loop := none }) ∧
    (u.Scheme = nsq.nsqdScheme → lib.NewProducer u.Host = none →
      s.pollForOutgoingMessages lib uri =
        { err := none, producers := [u.Host], loop := some (nsq.outgoingTopic lib u, u.Host) }) ∧
    (u.Scheme ≠ nsq.nsqdScheme → u.Scheme ≠ nsq.nsqlookupdScheme →
      (s.Queue lib uri).handler = none ∧
      (s.Queue lib uri).err = some nsq.errIncorrectScheme ∧
      (s.Queue lib uri).incoming = { err := some nsq.errIncorrectScheme, consumers := [],
                                     loop := none } ∧
      (s.Queue lib uri).outgoing = none) := by
  refine ⟨?_, ?_, ?_⟩
  · intro hs
    simp [nsq.NSQQueueMux.pollForOutgoingMessages, hp, hs, nsq.schemes_differ]
  · intro hs hn
    simp [nsq.NSQQueueMux.pollForOutgoingMessages, hp, hs, hn]
  · intro h1 h2
    have hi : s.pollForIncomingMessages lib uri =
        { err := some nsq.errIncorrectScheme, consumers := [], loop := none } := by
      simp [nsq.NSQQueueMux.pollForIncomingMessages, hp, h1, h2]
    simp [nsq.NSQQueueMux.Queue, hi]

/-- Witness of C16: `nsqlookupd://host:4161/orders` sets up no publishing,
`nsqd://host:4150/testtopic/testchannel#ephemeral` starts the outgoing loop for topic
`testtopic`, and `foo://` is refused. -/
theorem nsq_scheme_setup_witness :
    (nsq.newNSQQueueMux true).pollForOutgoingMessages fixtures.nsqLib
        "nsqlookupd://host:4161/orders" = { err := none, producers := [], loop := none } ∧
    (nsq.newNSQQueueMux false).pollForOutgoingMessages fixtures.nsqLib
        "nsqd://host:4150/testtopic/testchannel#ephemeral" =
      { err := none, producers := ["host:4150"]
        loop := some (nsq.outgoingTopic fixtures.nsqLib
          { Scheme := "nsqd", Host := "host:4150", Hostname := "host"
            Path := "/testtopic/testchannel", Fragment := "ephemeral" }, "host:4150") } ∧
    ((nsq.newNSQQueueMux false).Queue fixtures.nsqLib "foo://").handler = none ∧
    ((nsq.newNSQQueueMux false).Queue fixtures.nsqLib "foo://").err =
      some nsq.errIncorrectScheme :=
  ⟨(nsq_scheme_setup (nsq.newNSQQueueMux true) fixtures.nsqLib "nsqlookupd://host:4161/orders"
      { Scheme := "nsqlookupd", Host := "host:4161", Hostname := "host", Path := "/orders"
        Fragment := "" } (by rfl)).1 (by rfl),
    (nsq_scheme_setup (nsq.newNSQQueueMux false) fixtures.nsqLib
      "nsqd://host:4150/testtopic/testchannel#ephemeral"
      { Scheme := "nsqd", Host := "host:4150", Hostname := "host"
        Path := "/testtopic/testchannel", Fragment := "ephemeral" } (by rfl)).2.1 (by rfl)
      (by rfl),
    ((nsq_scheme_setup (nsq.newNSQQueueMux false) fixtures.nsqLib "foo://"
      { Scheme := "foo", Host := "", Hostname := "", Path := "", Fragment := "" }
      (by rfl)).2.2 (by decide) (by decide)).1,
    ((nsq_scheme_setup (nsq.newNSQQueueMux false) fixtures.nsqLib "foo://"
      { Scheme := "foo", Host := "", Hostname := "", Path := "", Fragment := "" }
      (by rfl)).2.2 (by decide) (by decide)).2.1⟩

/-! ## Shutdown: what each loop does when it observes the done signal -/

/-- The four loops whose done case runs `break LOOP` leave the loop when they observe the
done signal, and do nothing else in that iteration: the outgoing loop of `sqs`, both loops
of `nsq`, and the incoming loop of `mem`. -/
theorem labelled_loops_exit_on_done (svc : sqs.SQSAPI) (queueUrl : Option String)
    (lib : nsq.Lib) (topic : String) (errs : ErrHeap) (outcome : GoError)
    (dels : options.DelHeap) (stopped : Bool) :
    sqs.outgoingSelect svc queueUrl .done errs =
      { sends := [], errs := .done errs, ctl := .exit } ∧
    nsq.outgoingSelect lib topic .done errs =
      { published := [], errs := .done errs, ctl := .exit } ∧
    nsq.incomingPass none stopped = .exit ∧
    mem.incomingSelect .done outcome dels = { requeued := [], ctl := .exit } :=
  ⟨rfl, rfl, rfl, rfl⟩

/-- C17 (the code at the failing input): after `Close` has closed `Done`, the iteration of
the `sqs` incoming loop that observes it still polls the broker with `ReceiveMessage`,
processes the message received, and continues with the next iteration; and the iteration
of the `mem` outgoing loop that observes it continues with the next iteration, in which
an envelope taken from the outbound buffer is still pushed onto the shared channel. -/
theorem unlabelled_break_keeps_looping :
    (∃ q, (queue.NewQueueHandler "sqs://someuri" 1000).Close = .done q ∧
      q.Done.closed = true ∧
      sqs.incomingCycle (fixtures.TestSQS "someurl" none) (some "someurl") q (fun _ => none) [] =
        { observedDone := true
          polls := [sqs.receiveMessageInput (some "someurl")]
          deletes := [{ QueueUrl := some "someurl", ReceiptHandle := some "somehandle" }]
          ctl := .next }) ∧
    (∀ (s : mem.MemQueueMux) (host uuid : String) (errs : ErrHeap),
      (s.outgoingSelect host uuid .done errs).ctl = .next ∧
      ∃ s1 errs1, (s.outgoingSelect host uuid .done errs).state = .done (s1, errs1) ∧
        s1.pipe = s.pipe ∧ errs1 = errs) ∧
    (∃ s1 errs1,
      (mem.DefaultMemQueueMux.outgoingSelect "host1" "id-2"
          (.received { Data := fixtures.payload, Err := 0,
                       Context := options.NewMessageContext "id-1" })
          [Chan.make 1]).state = .done (s1, errs1) ∧
      s1.pipe "host1" =
        some { cap := 1000
               buf := [{ data := fixtures.payload, ctx := options.NewMessageContext "id-2" }]
               closed := false }) := by
  refine ⟨⟨_, rfl, rfl, ?_⟩, ?_, ⟨_, _, rfl, ?_⟩⟩
  · rfl
  · intro s host uuid errs
    exact ⟨rfl, s, errs, rfl, rfl, rfl⟩
  · rfl

/-! ## Delete or requeue: `mem` against `sqs` -/

/-- The two incoming loops decide alike whenever the outcome is nil or the override is not
set to true: the `mem` loop does not requeue exactly when the `sqs` loop issues a delete. -/
theorem delete_policies_agree (queueUrl : Option String) (m : sqs.Message)
    (mm : mem.MemQueueMessage) (err : GoError) (dels : options.DelHeap)
    (h : err = none ∨ options.GetMessageDeleteValue mm.ctx dels ≠ (true, true)) :
    mem.afterReceive mm err dels = [] ↔ sqs.afterReceive queueUrl m mm.ctx err dels ≠ [] := by
  cases hg : options.GetMessageDeleteValue mm.ctx dels with
  | mk v isSet =>
    rw [hg] at h
    cases err with
    | none => cases v <;> cases isSet <;> simp [mem.afterReceive, sqs.afterReceive, hg]
    | some e =>
      cases v <;> cases isSet <;> simp [mem.afterReceive, sqs.afterReceive, hg] at h ⊢

/-- On the contexts the loops build themselves no override is attached, so the two loops
decide alike for every outcome: delete, respectively no requeue, exactly on nil. -/
theorem delete_policies_agree_on_built_contexts (queueUrl : Option String) (m : sqs.Message)
    (uuid : String) (data : Bytes) (err : GoError) (dels : options.DelHeap) :
    (mem.afterReceive { data := data, ctx := options.NewMessageContext uuid } err dels = [] ↔
      err = none) ∧
    (sqs.afterReceive queueUrl m (sqs.incomingContext m) err dels ≠ [] ↔ err = none) := by
  have h1 := (options.delete_override_absent (options.NewMessageContext uuid) true dels
    (options.NewMessageContext_deleteKey uuid)).2
  have h2 := (options.delete_override_absent (sqs.incomingContext m) true dels
    (sqs.incomingContext_deleteKey m)).2
  constructor
  · cases err <;> simp [mem.afterReceive, h1]
  · rw [sqs.afterReceive_no_override queueUrl m _ err dels (by rw [h2])]
    cases err <;> simp

/-- C18: for every processing outcome (nil or an error) and every state of the override
flag (left alone by the callbacks, set to true or set to false with `SetMessageDelete` on
the message's context), on the contexts the two incoming loops build for their messages:
the iteration of the `mem` incoming loop hands nothing to the requeue goroutine exactly
when the `sqs` incoming loop issues the delete for its message, and both do so exactly when
the outcome is nil; the `sqs` loop issues either that one delete or none, and the `mem`
loop requeues either that one message or none. -/
theorem delete_policy_same_in_both_loops (queueUrl : Option String) (m : sqs.Message)
    (uuid : String) (data : Bytes) (err : GoError) (flag : Option Bool)
    (dels : options.DelHeap) :
    ((mem.incomingSelect (.received { data := data, ctx := options.NewMessageContext uuid }) err
          (options.overrideState (options.NewMessageContext uuid) flag dels)).requeued = [] ↔
      sqs.afterReceive queueUrl m (sqs.incomingContext m) err
          (options.overrideState (sqs.incomingContext m) flag dels) =
        [{ QueueUrl := queueUrl, ReceiptHandle := m.ReceiptHandle }]) ∧
    (sqs.afterReceive queueUrl m (sqs.incomingContext m) err
          (options.overrideState (sqs.incomingContext m) flag dels) =
        [{ QueueUrl := queueUrl, ReceiptHandle := m.ReceiptHandle }] ↔ err = none) ∧
    (sqs.afterReceive queueUrl m (sqs.incomingContext m) err
          (options.overrideState (sqs.incomingContext m) flag dels) =
        if err = none then [{ QueueUrl := queueUrl, ReceiptHandle := m.ReceiptHandle }]
        else []) ∧
    (mem.incomingSelect (.received { data := data, ctx := options.NewMessageContext uuid }) err
          (options.overrideState (options.NewMessageContext uuid) flag dels)).requeued =
      if err = none then [] else [{ data := data, ctx := options.NewMessageContext uuid }] := by
  have h1 := (options.delete_override_absent (options.NewMessageContext uuid) true
    (options.overrideState (options.NewMessageContext uuid) flag dels)
    (options.NewMessageContext_deleteKey uuid)).2
  have h2 := (options.delete_override_absent (sqs.incomingContext m) true
    (options.overrideState (sqs.incomingContext m) flag dels)
    (sqs.incomingContext_deleteKey m)).2
  rw [sqs.afterReceive_no_override queueUrl m _ err _ (by rw [h2])]
  cases err <;> simp [mem.incomingSelect, mem.afterReceive, h1]

/-- The two loops read the override in different places: on a context that carried a
delete cell set to true, the `mem` incoming loop would read it after an error and hand
nothing to the requeue goroutine, while the `sqs` incoming loop continues with the next
message before it reads the override and issues no delete. No function of the packages
attaches such a cell, so no message reaches the loops with one. -/
theorem sqs_skips_override_on_error :
    options.GetMessageDeleteValue fixtures.contextWithCell [{ shouldDelete := true }] =
      (true, true) ∧
    mem.afterReceive { data := fixtures.payload, ctx := fixtures.contextWithCell }
      (some "boom") [{ shouldDelete := true }] = [] ∧
    sqs.afterReceive (some "someurl") (fixtures.testMessage "somehandle")
      fixtures.contextWithCell (some "boom") [{ shouldDelete := true }] = [] := by
  refine ⟨?_, ?_, ?_⟩
  · rfl
  · rfl
  · rfl

/-! ## Package `mem`: from `Publish` to the callback -/

namespace mem

theorem store_pipe_self (s : MemQueueMux) (host : String) (ch : Chan MemQueueMessage) :
    (s.store host ch).pipe host = some ch := by
  simp [MemQueueMux.store]

/-- The push of the outgoing iteration: with room on the host's channel, or no channel
yet, the message is appended to the messages waiting for the host. -/
theorem outgoingIteration_push (s : MemQueueMux) (host uuid : String)
    (outgoing : queue.QueueMessage) (errs : ErrHeap)
    (hslot : errs[outgoing.Err]? = some (Chan.make 1))
    (hpipe : ∀ ch, s.pipe host = some ch → ch.closed = false ∧ ch.buf.length < ch.cap) :
    ∃ s1 ch1, s.outgoingIteration host uuid outgoing errs =
        .done (s1, errs.set outgoing.Err { cap := 1, buf := [], closed := true }) ∧
      s1.pipe host = some ch1 ∧
      ch1.buf = s.waiting host ++
        [{ data := outgoing.Data, ctx := options.NewMessageContext uuid }] := by
  have hclose := ErrHeap.close_of_getElem? hslot rfl
  simp only [Chan.make] at hclose
  cases hp : s.pipe host with
  | none =>
    refine ⟨s.store host
        { cap := defaultBuffer
          buf := [{ data := outgoing.Data, ctx := options.NewMessageContext uuid }]
          closed := false },
      { cap := defaultBuffer
        buf := [{ data := outgoing.Data, ctx := options.NewMessageContext uuid }]
        closed := false }, ?_, store_pipe_self s host _, ?_⟩
    · simp [MemQueueMux.outgoingIteration, hp, Chan.send, Chan.make, defaultBuffer,
        Step.bind, queue.QueueMessage.Close, hclose]
    · simp [MemQueueMux.waiting, hp]
  | some ch =>
    obtain ⟨hopen, hroom⟩ := hpipe ch hp
    refine ⟨s.store host
        { cap := ch.cap
          buf := ch.buf ++ [{ data := outgoing.Data, ctx := options.NewMessageContext uuid }]
          closed := ch.closed },
      { cap := ch.cap
        buf := ch.buf ++ [{ data := outgoing.Data, ctx := options.NewMessageContext uuid }]
        closed := ch.closed }, ?_, store_pipe_self s host _, ?_⟩
    · simp [MemQueueMux.outgoingIteration, hp, Chan.send, hopen, hroom, Step.bind,
        queue.QueueMessage.Close, hclose]
    · simp [MemQueueMux.waiting, hp]

end mem

namespace mem

/-- A message pushed by the outgoing loop carries no override, so on an error it is handed
to the requeue goroutine unchanged, and on nil it is not requeued. -/
theorem afterReceive_pushed (uuid : String) (data : Bytes) (err : GoError)
    (dels : options.DelHeap) :
    afterReceive { data := data, ctx := options.NewMessageContext uuid } err dels =
      if err = none then [] else [{ data := data, ctx := options.NewMessageContext uuid }] := by
  have h := (options.delete_override_absent (options.NewMessageContext uuid) true dels
    (options.NewMessageContext_deleteKey uuid)).2
  cases err <;> simp [afterReceive, h]

/-- The requeue goroutine appends the message to the host's channel when it has room. -/
theorem requeue_room (s : MemQueueMux) (host : String) (msg : MemQueueMessage)
    (ch : Chan MemQueueMessage) (hp : s.pipe host = some ch) (hopen : ch.closed = false)
    (hroom : ch.buf.length < ch.cap) :
    ∃ s1 ch1, s.requeue host msg = .done s1 ∧ s1.pipe host = some ch1 ∧
      ch1.buf = ch.buf ++ [msg] := by
  refine ⟨s.store host { cap := ch.cap, buf := ch.buf ++ [msg], closed := ch.closed },
    { cap := ch.cap, buf := ch.buf ++ [msg], closed := ch.closed }, ?_,
    store_pipe_self s host _, rfl⟩
  simp [MemQueueMux.requeue, hp, Chan.send, hopen, hroom, Step.bind]

/-- For a URI that parses, the setup of the incoming loop never fails and starts the
goroutine with the channel of the URI's host, which the map then holds: the channel that
was there, or a new empty one. The messages waiting for the host are the same. -/
theorem pollForIncomingMessages_holds (s : MemQueueMux)
    (parse : String → Except String url.URL) (uri : String) (u : url.URL)
    (hp : parse uri = .ok u) :
    (s.pollForIncomingMessages parse uri).err = none ∧
    (s.pollForIncomingMessages parse uri).started = true ∧
    (s.pollForIncomingMessages parse uri).pipe = some u.Host ∧
    (s.pollForIncomingMessages parse uri).mux.pipe u.Host =
      some ((s.pipe u.Host).getD (Chan.make defaultBuffer)) ∧
    (s.pollForIncomingMessages parse uri).mux.waiting u.Host = s.waiting u.Host := by
  cases hc : s.pipe u.Host with
  | none =>
    simp [MemQueueMux.pollForIncomingMessages, hp, hc, store_pipe_self, MemQueueMux.waiting,
      Chan.make]
  | some ch =>
    simp [MemQueueMux.pollForIncomingMessages, hp, hc, MemQueueMux.waiting]

/-- The receive of a loop that holds the channel of `host` takes the oldest waiting
message and leaves the others. -/
theorem incomingTake_head (s : MemQueueMux) (host : String) (ch : Chan MemQueueMessage)
    (m : MemQueueMessage) (rest : List MemQueueMessage) (hp : s.pipe host = some ch)
    (hb : ch.buf = m :: rest) :
    ∃ s2, s.incomingTake (some host) = .done (m, s2) ∧ s2.waiting host = rest := by
  refine ⟨s.store host { cap := ch.cap, buf := rest, closed := ch.closed }, ?_, ?_⟩
  · simp [MemQueueMux.incomingTake, hp, Chan.recv, hb, Step.bind]
  · simp [MemQueueMux.waiting, store_pipe_self]

/-- What the incoming loop does with a message pushed by the outgoing loop once its
receive on the channel returned by `Receive` yields `r`: it hands the message to the
requeue goroutine exactly when `r` is an error. -/
theorem awaitAndRequeue_eq (uuid : String) (data : Bytes) (errs errs3 : ErrHeap) (ch : Nat)
    (r : GoError) (dels : options.DelHeap) (hr : errs.recv ch = .done (r, errs3)) :
    awaitAndRequeue { data := data, ctx := options.NewMessageContext uuid } errs ch dels =
      .done (if r = none then [] else [{ data := data, ctx := options.NewMessageContext uuid }],
        errs3) := by
  simp only [awaitAndRequeue, hr, Step.bind]
  rw [afterReceive_pushed]

end mem

/-- C19: for `mem` URIs that parse and name the same host, with room on the publishing
handler's outbound buffer and on the host's shared channel: `Queue` returns a handler
after the setup of the incoming loop; `Publish` enqueues an envelope with the payload; the
outgoing iteration pushes a message with exactly that payload onto the channel of the
URI's host, behind the messages already waiting, creating the channel when the map has
none, and closes the envelope's error channel, so `Publish` returns nil. The incoming loop
of a handler on the same host holds that channel, whether it was set up after the push or
before it (as it is for the publishing handler itself, whose setup creates the channel):
when nothing was waiting before, the message its receive takes from the channel is the
pushed one. The loop hands the message's context and payload to `Receive`, the `Start`
loop invokes the registered callback on exactly that payload, and the incoming loop,
released with the callback's result, requeues the message unchanged exactly when the
result is an error; the requeue goroutine puts it back on the host's channel with the
same payload. -/
theorem mem_publish_delivers (parse : String → Except String url.URL) (uri uri2 : String)
    (u u2 : url.URL) (s : mem.MemQueueMux) (q qc : queue.QueueHandler) (cb : queue.Callback)
    (errs : ErrHeap) (uuid uuid2 : String) (data : Bytes) (opts : List options.PublishOptions)
    (dels : options.DelHeap) (hp : parse uri = .ok u) (hp2 : parse uri2 = .ok u2)
    (hh : u2.Host = u.Host)
    (hopen : q.Outgoing.closed = false) (hroom : q.Outgoing.buf.length < q.Outgoing.cap)
    (hpipe : ∀ ch, s.pipe u.Host = some ch → ch.closed = false ∧ ch.buf.length < ch.cap)
    (hcb : qc.handlers = [cb]) (hin : qc.in_.closed = false) (hinbuf : qc.in_.buf = [])
    (hincap : 0 < qc.in_.cap) :
    ∃ q1 m, q.PublishSend errs uuid data opts =
        .done (q1, errs ++ [Chan.make 1], errs.length) ∧
      q1.Outgoing.buf = q.Outgoing.buf ++ [m] ∧ m.Data = data ∧
      s.Queue parse uri =
        ((s.pollForIncomingMessages parse uri).mux,
          some (queue.NewQueueHandler uri mem.defaultBuffer), none) ∧
      s.pollForOutgoingMessages parse uri = (none, some u.Host) ∧
      (∃ s1 ch1,
        s.outgoingIteration u.Host uuid2 m (errs ++ [Chan.make 1]) =
          .done (s1, (errs ++ [Chan.make 1]).set errs.length
            { cap := 1, buf := [], closed := true }) ∧
        s1.pipe u.Host = some ch1 ∧
        ch1.buf = s.waiting u.Host ++ [{ data := data, ctx := options.NewMessageContext uuid2 }] ∧
        (s1.pollForIncomingMessages parse uri2).err = none ∧
        (s1.pollForIncomingMessages parse uri2).started = true ∧
        (s1.pollForIncomingMessages parse uri2).mux.pipe u.Host = some ch1 ∧
        (s.waiting u.Host = [] →
          ∃ s2,
            (s1.pollForIncomingMessages parse uri2).mux.incomingTake
                (s1.pollForIncomingMessages parse uri2).pipe =
              .done ({ data := data, ctx := options.NewMessageContext uuid2 }, s2) ∧
            s2.waiting u.Host = [])) ∧
      ((s.pollForIncomingMessages parse uri2).err = none ∧
        (s.pollForIncomingMessages parse uri2).started = true ∧
        ∃ s1 ch1,
          (s.pollForIncomingMessages parse uri2).mux.outgoingIteration u.Host uuid2 m
              (errs ++ [Chan.make 1]) =
            .done (s1, (errs ++ [Chan.make 1]).set errs.length
              { cap := 1, buf := [], closed := true }) ∧
          s1.pipe u.Host = some ch1 ∧
          ch1.buf =
            s.waiting u.Host ++ [{ data := data, ctx := options.NewMessageContext uuid2 }] ∧
          (s.waiting u.Host = [] →
            ∃ s2,
              s1.incomingTake (s.pollForIncomingMessages parse uri2).pipe =
                .done ({ data := data, ctx := options.NewMessageContext uuid2 }, s2) ∧
              s2.waiting u.Host = [])) ∧
      (∃ errs3,
        queue.QueueHandler.PublishAwait
            ((errs ++ [Chan.make 1]).set errs.length { cap := 1, buf := [], closed := true })
            m.Err = .done (none, errs3)) ∧
      (∀ errs2 : ErrHeap, ∃ qc1 qc2 run errs4,
        mem.receiveMessage qc errs2 { data := data, ctx := options.NewMessageContext uuid2 } =
          .done (qc1, errs2 ++ [Chan.make 1], errs2.length) ∧
        qc1.in_.buf =
          [{ Data := data, Err := errs2.length, Context := options.NewMessageContext uuid2 }] ∧
        qc1.processNext (errs2 ++ [Chan.make 1]) dels = some (qc2, run) ∧
        run =
          { invoked := 1
            errs := (errs2 ++ [Chan.make 1]).set errs2.length
              (match (cb (options.NewMessageContext uuid2) data dels).1 with
               | some e => { cap := 1, buf := [some e], closed := false }
               | none => { cap := 1, buf := [], closed := true })
            dels := (cb (options.NewMessageContext uuid2) data dels).2
            status := .completed } ∧
        ∀ dels2,
          mem.awaitAndRequeue { data := data, ctx := options.NewMessageContext uuid2 } run.errs
              errs2.length dels2 =
            .done
              (if (cb (options.NewMessageContext uuid2) data dels).1 = none then []
               else [{ data := data, ctx := options.NewMessageContext uuid2 }], errs4)) ∧
      (∀ (s2 : mem.MemQueueMux) (ch : Chan mem.MemQueueMessage), s2.pipe u.Host = some ch →
        ch.closed = false → ch.buf.length < ch.cap →
        ∃ s3 ch3,
          s2.requeue u.Host { data := data, ctx := options.NewMessageContext uuid2 } = .done s3 ∧
          s3.pipe u.Host = some ch3 ∧
          ch3.buf = ch.buf ++ [{ data := data, ctx := options.NewMessageContext uuid2 }]) := by
  have hsend := queue.PublishSend_room q errs uuid data opts hopen hroom
  have hslot : (errs ++ [Chan.make 1])[errs.length]? = some (Chan.make 1) := by simp
  have hclosed := ErrHeap.getElem?_set_self { cap := 1, buf := [], closed := true } hslot
  have hawait : queue.QueueHandler.PublishAwait
      ((errs ++ [Chan.make 1]).set errs.length { cap := 1, buf := [], closed := true })
      errs.length = .done (none,
        ((errs ++ [Chan.make 1]).set errs.length { cap := 1, buf := [], closed := true }).set
          errs.length { cap := 1, buf := [], closed := true }) := by
    rw [queue.PublishAwait_eq]
    exact ErrHeap.recv_of_getElem?_closed hclosed rfl rfl
  obtain ⟨hBerr, hBstarted, hBpipe, hBmux, hBwait⟩ :=
    mem.pollForIncomingMessages_holds s parse uri2 u2 hp2
  rw [hh] at hBpipe hBmux hBwait
  have hpipeB : ∀ ch, (s.pollForIncomingMessages parse uri2).mux.pipe u.Host = some ch →
      ch.closed = false ∧ ch.buf.length < ch.cap := by
    intro ch hch
    rw [hBmux] at hch
    cases hc : s.pipe u.Host with
    | none =>
      rw [hc] at hch
      simp only [Option.getD_none, Option.some.injEq] at hch
      subst hch
      exact ⟨rfl, by decide⟩
    | some c =>
      rw [hc] at hch
      simp only [Option.getD_some, Option.some.injEq] at hch
      subst hch
      exact hpipe c hc
  obtain ⟨sA, chA, hiterA, hsA, hbufA⟩ := mem.outgoingIteration_push s u.Host uuid2
    { Data := data, Err := errs.length
      Context := options.ContextWithPublishOptions (options.NewMessageContext uuid)
        (options.Merge opts) } (errs ++ [Chan.make 1]) hslot hpipe
  obtain ⟨sB, chB, hiterB, hsB, hbufB⟩ := mem.outgoingIteration_push
    (s.pollForIncomingMessages parse uri2).mux u.Host uuid2
    { Data := data, Err := errs.length
      Context := options.ContextWithPublishOptions (options.NewMessageContext uuid)
        (options.Merge opts) } (errs ++ [Chan.make 1]) hslot hpipeB
  rw [hBwait] at hbufB
  obtain ⟨hAerr, hAstarted, hApipe, hAmux, _⟩ :=
    mem.pollForIncomingMessages_holds sA parse uri2 u2 hp2
  rw [hh] at hApipe hAmux
  rw [hsA] at hAmux
  simp only [Option.getD_some] at hAmux
  refine ⟨_, _, hsend, rfl, rfl, ?_, ?_, ⟨sA, chA, hiterA, hsA, hbufA, hAerr, hAstarted, hAmux, ?_⟩,
    ⟨hBerr, hBstarted, sB, chB, hiterB, hsB, hbufB, ?_⟩, ⟨_, hawait⟩, ?_, ?_⟩
  · simp [mem.MemQueueMux.Queue, mem.MemQueueMux.pollForOutgoingMessages, hp,
      (mem.pollForIncomingMessages_holds s parse uri u hp).1]
  · simp [mem.MemQueueMux.pollForOutgoingMessages, hp]
  · intro hw
    rw [hw] at hbufA
    rw [hApipe]
    exact mem.incomingTake_head _ u.Host chA _ [] hAmux (by simpa using hbufA)
  · intro hw
    rw [hw] at hbufB
    rw [hBpipe]
    exact mem.incomingTake_head sB u.Host chB _ [] hsB (by simpa using hbufB)
  · intro errs2
    obtain ⟨qc1, qc2, errs4, hrecv, hbuf, hnext, hwait⟩ := queue.deliver_chain qc cb [] errs2
      (options.NewMessageContext uuid2) data dels hcb hin hinbuf hincap
    have hrun := queue.runHandlers_single cb
      { Data := data, Err := errs2.length, Context := options.NewMessageContext uuid2 }
      (errs2 ++ [Chan.make 1]) dels (by simp)
    refine ⟨qc1, qc2, _, errs4, hrecv, hbuf, hnext, hrun, ?_⟩
    intro dels2
    exact mem.awaitAndRequeue_eq uuid2 data _ errs4 errs2.length _ dels2 hwait
  · intro s2 ch hc ho hr
    exact mem.requeue_room s2 u.Host _ ch hc ho hr

/-- Witness of C19: the JSON payload published on `mem://host1/` with an empty map, on
which nothing is waiting, delivered to a handler on the same URI with the no-op callback. -/
theorem mem_publish_delivers_witness :
    mem.DefaultMemQueueMux.waiting "host1" = [] ∧
    (fixtures.handlerNil "mem://host1/").handlers = [fixtures.callbackNil] ∧
    (∃ q1 m, (queue.NewQueueHandler "mem://host1/" 1000).PublishSend ([] : ErrHeap) "id-1" fixtures.jsonPayload [] =
        .done (q1, ([] : ErrHeap) ++ [Chan.make 1], ([] : ErrHeap).length) ∧
      q1.Outgoing.buf = (queue.NewQueueHandler "mem://host1/" 1000).Outgoing.buf ++ [m] ∧ m.Data = fixtures.jsonPayload ∧
      mem.DefaultMemQueueMux.Queue fixtures.parseURI "mem://host1/" =
        ((mem.DefaultMemQueueMux.pollForIncomingMessages fixtures.parseURI "mem://host1/").mux,
          some (queue.NewQueueHandler "mem://host1/" mem.defaultBuffer), none) ∧
      mem.DefaultMemQueueMux.pollForOutgoingMessages fixtures.parseURI "mem://host1/" = (none, some "host1") ∧
      (∃ s1 ch1,
        mem.DefaultMemQueueMux.outgoingIteration "host1" "id-2" m (([] : ErrHeap) ++ [Chan.make 1]) =
          .done (s1, (([] : ErrHeap) ++ [Chan.make 1]).set ([] : ErrHeap).length
            { cap := 1, buf := [], closed := true }) ∧
        s1.pipe "host1" = some ch1 ∧
        ch1.buf = mem.DefaultMemQueueMux.waiting "host1" ++ [{ data := fixtures.jsonPayload, ctx := options.NewMessageContext "id-2" }] ∧
        (s1.pollForIncomingMessages fixtures.parseURI "mem://host1/").err = none ∧
        (s1.pollForIncomingMessages fixtures.parseURI "mem://host1/").started = true ∧
        (s1.pollForIncomingMessages fixtures.parseURI "mem://host1/").mux.pipe "host1" = some ch1 ∧
        (mem.DefaultMemQueueMux.waiting "host1" = [] →
          ∃ s2,
            (s1.pollForIncomingMessages fixtures.parseURI "mem://host1/").mux.incomingTake
                (s1.pollForIncomingMessages fixtures.parseURI "mem://host1/").pipe =
              .done ({ data := fixtures.jsonPayload, ctx := options.NewMessageContext "id-2" }, s2) ∧
            s2.waiting "host1" = [])) ∧
      ((mem.DefaultMemQueueMux.pollForIncomingMessages fixtures.parseURI "mem://host1/").err = none ∧
        (mem.DefaultMemQueueMux.pollForIncomingMessages fixtures.parseURI "mem://host1/").started = true ∧
        ∃ s1 ch1,
          (mem.DefaultMemQueueMux.pollForIncomingMessages fixtures.parseURI "mem://host1/").mux.outgoingIteration "host1" "id-2" m
              (([] : ErrHeap) ++ [Chan.make 1]) =
            .done (s1, (([] : ErrHeap) ++ [Chan.make 1]).set ([] : ErrHeap).length
              { cap := 1, buf := [], closed := true }) ∧
          s1.pipe "host1" = some ch1 ∧
          ch1.buf =
            mem.DefaultMemQueueMux.waiting "host1" ++ [{ data := fixtures.jsonPayload, ctx := options.NewMessageContext "id-2" }] ∧
          (mem.DefaultMemQueueMux.waiting "host1" = [] →
            ∃ s2,
              s1.incomingTake (mem.DefaultMemQueueMux.pollForIncomingMessages fixtures.parseURI "mem://host1/").pipe =
                .done ({ data := fixtures.jsonPayload, ctx := options.NewMessageContext "id-2" }, s2) ∧
              s2.waiting "host1" = [])) ∧
      (∃ errs3,
        queue.QueueHandler.PublishAwait
            ((([] : ErrHeap) ++ [Chan.make 1]).set ([] : ErrHeap).length { cap := 1, buf := [], closed := true })
            m.Err = .done (none, errs3)) ∧
      (∀ errs2 : ErrHeap, ∃ qc1 qc2 run errs4,
        mem.receiveMessage (fixtures.handlerNil "mem://host1/") errs2 { data := fixtures.jsonPayload, ctx := options.NewMessageContext "id-2" } =
          .done (qc1, errs2 ++ [Chan.make 1], errs2.length) ∧
        qc1.in_.buf =
          [{ Data := fixtures.jsonPayload, Err := errs2.length, Context := options.NewMessageContext "id-2" }] ∧
        qc1.processNext (errs2 ++ [Chan.make 1]) [] = some (qc2, run) ∧
        run =
          { invoked := 1
            errs := (errs2 ++ [Chan.make 1]).set errs2.length
              (match (fixtures.callbackNil (options.NewMessageContext "id-2") fixtures.jsonPayload []).1 with
               | some e => { cap := 1, buf := [some e], closed := false }
               | none => { cap := 1, buf := [], closed := true })
            dels := (fixtures.callbackNil (options.NewMessageContext "id-2") fixtures.jsonPayload []).2
            status := .completed } ∧
        ∀ dels2,
          mem.awaitAndRequeue { data := fixtures.jsonPayload, ctx := options.NewMessageContext "id-2" } run.errs
              errs2.length dels2 =
            .done
              (if (fixtures.callbackNil (options.NewMessageContext "id-2") fixtures.jsonPayload []).1 = none then []
               else [{ data := fixtures.jsonPayload, ctx := options.NewMessageContext "id-2" }], errs4)) ∧
      (∀ (s2 : mem.MemQueueMux) (ch : Chan mem.MemQueueMessage), s2.pipe "host1" = some ch →
        ch.closed = false → ch.buf.length < ch.cap →
        ∃ s3 ch3,
          s2.requeue "host1" { data := fixtures.jsonPayload, ctx := options.NewMessageContext "id-2" } = .done s3 ∧
          s3.pipe "host1" = some ch3 ∧
          ch3.buf = ch.buf ++ [{ data := fixtures.jsonPayload, ctx := options.NewMessageContext "id-2" }])) :=
  ⟨rfl, rfl,
    mem_publish_delivers fixtures.parseURI "mem://host1/" "mem://host1/"
      { Scheme := "mem", Host := "host1", Hostname := "host1", Path := "/", Fragment := "" }
      { Scheme := "mem", Host := "host1", Hostname := "host1", Path := "/", Fragment := "" }
      mem.DefaultMemQueueMux (queue.NewQueueHandler "mem://host1/" 1000)
      (fixtures.handlerNil "mem://host1/") fixtures.callbackNil [] "id-1" "id-2"
      fixtures.jsonPayload [] [] (by rfl) (by rfl) (by rfl) (by rfl) (by decide)
      (by intro ch h; exact absurd h (by simp [mem.DefaultMemQueueMux]))
      (by rfl) (by rfl) (by rfl) (by decide)⟩

/-! ## Correlation ID across the broker -/

namespace sqs

/-- What the incoming loop reads back from the attributes the outgoing loop wrote is the
correlation ID of the envelope's context. -/
theorem safelyGetCorrelationID_written (msg : Message) (ctx : options.Context)
    (h : msg.MessageAttributes = outgoingAttributes ctx) :
    safelyGetCorrelationID msg = options.CorrelationIDFromContext ctx := by
  unfold safelyGetCorrelationID options.CorrelationIDFromContext
  rw [h]
  unfold outgoingAttributes
  cases hr : (options.PublishOptionsFromContext ctx).2 with
  | true => simp [hr, List.lookup]
  | false =>
    have hz : (options.PublishOptionsFromContext ctx).1.CorrelationID = none := by
      unfold options.PublishOptionsFromContext at hr ⊢
      split <;> simp_all
    simp [hr, hz, options.awsStringValue]

/-- The context built for a received message carries the ID read from its attributes. -/
theorem incomingContext_correlationID (msg : Message) :
    options.CorrelationIDFromContext (incomingContext msg) = safelyGetCorrelationID msg := by
  have h : options.Merge [options.WithCorrelationID (safelyGetCorrelationID msg)] =
      { CorrelationID := some (safelyGetCorrelationID msg) } := by
    simp [options.Merge, options.WithCorrelationID]
  simp [incomingContext, h, options.CorrelationIDFromContext,
    options.CorrelationIDFromContext_attach, options.awsStringValue]

end sqs

namespace nsq

/-- The wire envelope carries the correlation ID of the envelope's context. -/
theorem outgoingMessage_correlationID (outgoing : queue.QueueMessage) :
    (outgoingMessage outgoing).CorrelationID =
      options.CorrelationIDFromContext outgoing.Context := by
  unfold outgoingMessage options.CorrelationIDFromContext
  cases hr : (options.PublishOptionsFromContext outgoing.Context).2 with
  | true =>
    cases hc : (options.PublishOptionsFromContext outgoing.Context).1.CorrelationID with
    | none => simp [hr, hc, options.awsStringValue]
    | some c =>
      by_cases he : c = ""
      · simp [hr, hc, options.awsStringValue, he]
      · simp [hr, hc, options.awsStringValue, he]
  | false =>
    have hz : (options.PublishOptionsFromContext outgoing.Context).1.CorrelationID = none := by
      unfold options.PublishOptionsFromContext at hr ⊢
      split <;> simp_all
    simp [hr, hz, options.awsStringValue]

/-- The context built for a decoded envelope carries the envelope's correlation ID. -/
theorem decodedContext_correlationID (uuid : String) (m : NSQMessage) :
    options.CorrelationIDFromContext (incomingContext uuid m) = m.CorrelationID := by
  have h : options.Merge [options.WithCorrelationID m.CorrelationID] =
      { CorrelationID := some m.CorrelationID } := by
    simp [options.Merge, options.WithCorrelationID]
  simp [incomingContext, h, options.CorrelationIDFromContext,
    options.CorrelationIDFromContext_attach, options.awsStringValue]

end nsq

/-- C20: for an envelope of the outbound buffer whose context has the correlation ID `c`,
and a handler with a registered chain. The `sqs` outgoing loop sends exactly one message,
the one whose `correlation_id` attribute holds the context's ID pointer; for every broker
message that carries the attributes sent, the incoming loop reads `c`, and the message it
hands to `Receive`, on which the `Start` loop runs the chain, has a context whose
correlation ID is `c`; a broker message without the attribute yields the empty string
and is handed to `Receive` all the same. With a codec that encodes the wire envelope as
`byt` and decodes `byt` to an envelope with the same `CorrelationID` field: the `nsq`
outgoing loop writes `c` into that field and publishes exactly `byt` to the topic, and the
message handler that is given `byt` decodes it and hands to `Receive` the decoded payload
with a context whose correlation ID is `c`, on which the `Start` loop runs the chain. -/
theorem correlation_round_trip (outgoing : queue.QueueMessage) (c : String)
    (svc : sqs.SQSAPI) (queueUrl : Option String) (lib : nsq.Lib) (topic : String)
    (byt : Bytes) (m2 : nsq.NSQMessage) (uuid : String) (q : queue.QueueHandler)
    (handler : queue.Callback) (rest : List queue.Callback) (errs errs2 : ErrHeap)
    (dels : options.DelHeap)
    (hc : options.CorrelationIDFromContext outgoing.Context = c)
    (hm : lib.Marshal (nsq.outgoingMessage outgoing) = .ok byt)
    (hu : lib.Unmarshal byt = .ok m2)
    (hid : m2.CorrelationID = (nsq.outgoingMessage outgoing).CorrelationID)
    (hcb : q.handlers = handler :: rest) (hin : q.in_.closed = false)
    (hinbuf : q.in_.buf = []) (hincap : 0 < q.in_.cap) :
    (sqs.outgoingSelect svc queueUrl (.received outgoing) errs).sends =
      [sqs.sendMessageInput queueUrl outgoing] ∧
    (∀ opts, options.PublishOptionsFromContext outgoing.Context = (opts, true) →
      (sqs.sendMessageInput queueUrl outgoing).MessageAttributes =
          [(sqs.correlationIDAttributeKey,
            { StringValue := opts.CorrelationID, DataType := some "String" })] ∧
        options.awsStringValue opts.CorrelationID = c) ∧
    (∀ msg : sqs.Message,
      msg.MessageAttributes = (sqs.sendMessageInput queueUrl outgoing).MessageAttributes →
      sqs.safelyGetCorrelationID msg = c ∧
        options.CorrelationIDFromContext (sqs.incomingContext msg) = c ∧
        ∃ q1 q2,
          sqs.receiveMessage q errs2 msg = .done (q1, errs2 ++ [Chan.make 1], errs2.length) ∧
          q1.in_.buf =
            [{ Data := sqs.incomingData msg, Err := errs2.length
               Context := sqs.incomingContext msg }] ∧
          q1.processNext (errs2 ++ [Chan.make 1]) dels =
            some (q2, queue.runHandlers (handler :: rest)
              { Data := sqs.incomingData msg, Err := errs2.length
                Context := sqs.incomingContext msg } 0 (errs2 ++ [Chan.make 1]) dels)) ∧
    (∀ msg : sqs.Message, msg.MessageAttributes.lookup sqs.correlationIDAttributeKey = none →
      sqs.safelyGetCorrelationID msg = "" ∧
        options.CorrelationIDFromContext (sqs.incomingContext msg) = "" ∧
        ∃ q1, sqs.receiveMessage q errs2 msg =
            .done (q1, errs2 ++ [Chan.make 1], errs2.length) ∧
          q1.in_.buf =
            [{ Data := sqs.incomingData msg, Err := errs2.length
               Context := sqs.incomingContext msg }]) ∧
    (nsq.outgoingMessage outgoing).CorrelationID = c ∧
    (nsq.outgoingSelect lib topic (.received outgoing) errs).published = [(topic, byt)] ∧
    options.CorrelationIDFromContext (nsq.incomingContext uuid m2) = c ∧
    ∃ q1 q2,
      nsq.receiveMessage lib uuid q errs2 byt =
        .ok (.done (q1, errs2 ++ [Chan.make 1], errs2.length)) ∧
      q1.in_.buf =
        [{ Data := m2.RawMessage, Err := errs2.length
           Context := nsq.incomingContext uuid m2 }] ∧
      q1.processNext (errs2 ++ [Chan.make 1]) dels =
        some (q2, queue.runHandlers (handler :: rest)
          { Data := m2.RawMessage, Err := errs2.length
            Context := nsq.incomingContext uuid m2 } 0 (errs2 ++ [Chan.make 1]) dels) := by
  have hnsq : options.CorrelationIDFromContext (nsq.incomingContext uuid m2) = c := by
    rw [nsq.decodedContext_correlationID, hid, nsq.outgoingMessage_correlationID, hc]
  refine ⟨rfl, ?_, ?_, ?_, ?_, ?_, hnsq, ?_⟩
  · intro opts ho
    constructor
    · simp [sqs.sendMessageInput, sqs.outgoingAttributes, ho, options.awsString]
    · rw [← hc]
      simp [options.CorrelationIDFromContext, ho]
  · intro msg hmsg
    have h1 := sqs.safelyGetCorrelationID_written msg outgoing.Context hmsg
    rw [hc] at h1
    obtain ⟨q1, q2, _, hrecv, hbuf, hnext, _⟩ := queue.deliver_chain q handler rest errs2
      (sqs.incomingContext msg) (sqs.incomingData msg) dels hcb hin hinbuf hincap
    exact ⟨h1, by rw [sqs.incomingContext_correlationID, h1], q1, q2, hrecv, hbuf, hnext⟩
  · intro msg hmsg
    have h1 : sqs.safelyGetCorrelationID msg = "" := by
      simp [sqs.safelyGetCorrelationID, hmsg]
    obtain ⟨q1, _, _, hrecv, hbuf, _, _⟩ := queue.deliver_chain q handler rest errs2
      (sqs.incomingContext msg) (sqs.incomingData msg) dels hcb hin hinbuf hincap
    exact ⟨h1, by rw [sqs.incomingContext_correlationID, h1], q1, hrecv, hbuf⟩
  · rw [nsq.outgoingMessage_correlationID, hc]
  · simp only [nsq.outgoingSelect, nsq.outgoingIteration, hm]
    cases lib.Publish topic byt <;> rfl
  · obtain ⟨q1, q2, _, hrecv, hbuf, hnext, _⟩ := queue.deliver_chain q handler rest errs2
      (nsq.incomingContext uuid m2) m2.RawMessage dels hcb hin hinbuf hincap
    refine ⟨q1, q2, ?_, hbuf, hnext⟩
    simp only [nsq.receiveMessage, nsq.handleMessage, hu, hrecv]

/-- Witness of C20: the envelope `Publish` builds for the JSON payload with the generated
ID `id-1`, sent by the `sqs` outgoing loop and published by the `nsq` outgoing loop as the
body `json.Marshal` produces for it, and read back by the two incoming sides into a
handler with the no-op callback. -/
theorem correlation_round_trip_witness :
    options.CorrelationIDFromContext fixtures.publishedJsonEnvelope.Context = "id-1" ∧
    fixtures.nsqLib.Marshal (nsq.outgoingMessage fixtures.publishedJsonEnvelope) =
      .ok fixtures.jsonBody ∧
    fixtures.nsqLib.Unmarshal fixtures.jsonBody =
      .ok { CorrelationID := "id-1", RawMessage := fixtures.jsonPayload } ∧
    (sqs.safelyGetCorrelationID
        { Body := some fixtures.jsonPayload, ReceiptHandle := some "somehandle"
          MessageAttributes :=
            (sqs.sendMessageInput (some "someurl")
              fixtures.publishedJsonEnvelope).MessageAttributes } = "id-1") ∧
    ((sqs.outgoingSelect (fixtures.TestSQS "someurl" none) (some "someurl") (.received fixtures.publishedJsonEnvelope) [Chan.make 1]).sends =
      [sqs.sendMessageInput (some "someurl") fixtures.publishedJsonEnvelope] ∧
    (∀ opts, options.PublishOptionsFromContext fixtures.publishedJsonEnvelope.Context = (opts, true) →
      (sqs.sendMessageInput (some "someurl") fixtures.publishedJsonEnvelope).MessageAttributes =
          [(sqs.correlationIDAttributeKey,
            { StringValue := opts.CorrelationID, DataType := some "String" })] ∧
        options.awsStringValue opts.CorrelationID = "id-1") ∧
    (∀ msg : sqs.Message,
      msg.MessageAttributes = (sqs.sendMessageInput (some "someurl") fixtures.publishedJsonEnvelope).MessageAttributes →
      sqs.safelyGetCorrelationID msg = "id-1" ∧
        options.CorrelationIDFromContext (sqs.incomingContext msg) = "id-1" ∧
        ∃ q1 q2,
          sqs.receiveMessage (fixtures.handlerNil "nsqd://host:4150/testtopic/testchannel#ephemeral") ([] : ErrHeap) msg = .done (q1, ([] : ErrHeap) ++ [Chan.make 1], ([] : ErrHeap).length) ∧
          q1.in_.buf =
            [{ Data := sqs.incomingData msg, Err := ([] : ErrHeap).length
               Context := sqs.incomingContext msg }] ∧
          q1.processNext (([] : ErrHeap) ++ [Chan.make 1]) [] =
            some (q2, queue.runHandlers (fixtures.callbackNil :: [])
              { Data := sqs.incomingData msg, Err := ([] : ErrHeap).length
                Context := sqs.incomingContext msg } 0 (([] : ErrHeap) ++ [Chan.make 1]) [])) ∧
    (∀ msg : sqs.Message, msg.MessageAttributes.lookup sqs.correlationIDAttributeKey = none →
      sqs.safelyGetCorrelationID msg = "" ∧
        options.CorrelationIDFromContext (sqs.incomingContext msg) = "" ∧
        ∃ q1, sqs.receiveMessage (fixtures.handlerNil "nsqd://host:4150/testtopic/testchannel#ephemeral") ([] : ErrHeap) msg =
            .done (q1, ([] : ErrHeap) ++ [Chan.make 1], ([] : ErrHeap).length) ∧
          q1.in_.buf =
            [{ Data := sqs.incomingData msg, Err := ([] : ErrHeap).length
               Context := sqs.incomingContext msg }]) ∧
    (nsq.outgoingMessage fixtures.publishedJsonEnvelope).CorrelationID = "id-1" ∧
    (nsq.outgoingSelect fixtures.nsqLib "testtopic" (.received fixtures.publishedJsonEnvelope) [Chan.make 1]).published = [("testtopic", fixtures.jsonBody)] ∧
    options.CorrelationIDFromContext (nsq.incomingContext "id-2" ({ CorrelationID := "id-1", RawMessage := fixtures.jsonPayload } : nsq.NSQMessage)) = "id-1" ∧
    ∃ q1 q2,
      nsq.receiveMessage fixtures.nsqLib "id-2" (fixtures.handlerNil "nsqd://host:4150/testtopic/testchannel#ephemeral") ([] : ErrHeap) fixtures.jsonBody =
        .ok (.done (q1, ([] : ErrHeap) ++ [Chan.make 1], ([] : ErrHeap).length)) ∧
      q1.in_.buf =
        [{ Data := ({ CorrelationID := "id-1", RawMessage := fixtures.jsonPayload } : nsq.NSQMessage).RawMessage, Err := ([] : ErrHeap).length
           Context := nsq.incomingContext "id-2" ({ CorrelationID := "id-1", RawMessage := fixtures.jsonPayload } : nsq.NSQMessage) }] ∧
      q1.processNext (([] : ErrHeap) ++ [Chan.make 1]) [] =
        some (q2, queue.runHandlers (fixtures.callbackNil :: [])
          { Data := ({ CorrelationID := "id-1", RawMessage := fixtures.jsonPayload } : nsq.NSQMessage).RawMessage, Err := ([] : ErrHeap).length
            Context := nsq.incomingContext "id-2" ({ CorrelationID := "id-1", RawMessage := fixtures.jsonPayload } : nsq.NSQMessage) } 0 (([] : ErrHeap) ++ [Chan.make 1]) [])) :=
  ⟨rfl, rfl, rfl, rfl,
    correlation_round_trip fixtures.publishedJsonEnvelope "id-1"
      (fixtures.TestSQS "someurl" none) (some "someurl") fixtures.nsqLib "testtopic"
      fixtures.jsonBody { CorrelationID := "id-1", RawMessage := fixtures.jsonPayload } "id-2"
      (fixtures.handlerNil "nsqd://host:4150/testtopic/testchannel#ephemeral")
      fixtures.callbackNil [] [Chan.make 1] [] [] (by rfl) (by rfl) (by rfl) (by rfl) (by rfl)
      (by rfl) (by rfl) (by decide)⟩

/-! ## Package `nsq`: the topic published to against the topic consumed from -/

namespace nsq

/-- The topic of the incoming setup is the topic of the outgoing setup whenever the
directory component of the path is not empty; when it is empty, the incoming setup takes
the channel name and the outgoing setup keeps the empty string. -/
theorem topics_compared (lib : Lib) (u : url.URL) :
    (outgoingTopic lib u ≠ "" → incomingTopic lib u = outgoingTopic lib u) ∧
    (outgoingTopic lib u = "" → incomingTopic lib u = incomingChannel lib u) := by
  constructor
  · intro h
    unfold outgoingTopic at h
    simp [incomingTopic, outgoingTopic, h]
  · intro h
    unfold outgoingTopic at h
    simp [incomingTopic, h]

end nsq

/-- C21 (the code at the failing input): for `nsqd://host:4150/orders` the incoming setup
derives the topic `orders` and runs publish-only, while the outgoing setup starts its loop
with the empty string as topic, and the outgoing iteration publishes an envelope to the
empty topic. -/
theorem nsq_single_segment_publishes_to_empty_topic :
    (nsq.newNSQQueueMux false).pollForIncomingMessages fixtures.nsqLib
        "nsqd://host:4150/orders" = { err := none, consumers := [], loop := none } ∧
    nsq.incomingTopic fixtures.nsqLib
        { Scheme := "nsqd", Host := "host:4150", Hostname := "host", Path := "/orders"
          Fragment := "" } = "orders" ∧
    nsq.outgoingTopic fixtures.nsqLib
        { Scheme := "nsqd", Host := "host:4150", Hostname := "host", Path := "/orders"
          Fragment := "" } = "" ∧
    (nsq.newNSQQueueMux false).pollForOutgoingMessages fixtures.nsqLib
        "nsqd://host:4150/orders" =
      { err := none, producers := ["host:4150"], loop := some ("", "host:4150") } ∧
    (nsq.outgoingIteration fixtures.nsqLib "" fixtures.publishedJsonEnvelope
        [Chan.make 1]).published = [("", fixtures.jsonBody)] := by
  refine ⟨?_, ?_, ?_, ?_, ?_⟩
  · decide
  · decide
  · decide
  · decide
  · decide
